import Mathlib

/-!
Verification of the draw-call aggregation and ordering layer of the Urho3D
renderer (src/Engine/Graphics/Batch.cpp): the `Batch` sort-key model, the
`BatchGroup` instancing aggregation, and the `BatchQueue`
collect/sort/allocate/draw pipeline.

Modelling conventions:
* C++ pointers to external objects (geometry, material, pass, light queue,
  camera, shaders, transforms) are modelled as `Nat` identities, `0` playing
  the role of the null pointer.
* `float` camera distances are modelled as `Nat`: only their linear order is
  ever consumed by the code under verification.
* 32-bit `unsigned` arithmetic that can wrap is modelled as `Nat` arithmetic
  with an explicit `% 2 ^ 32`.
* External collaborator state (the graphics device, renderer policy, state
  cache) is passed explicitly; device calls become events in an event list.
-/

/-- Sentinel for "instancing-buffer slot not assigned" (M_MAX_UNSIGNED). -/
def M_MAX_UNSIGNED : Nat := 2 ^ 32 - 1

/-- Geometry type codes (GraphicsDefs.h, not under src/; only the
distinction from `geomStatic` is consumed by Batch.cpp). -/
inductive GeometryType where
  | geomStatic
  | geomSkinned
  | geomInstanced
  | geomBillboard
  deriving DecidableEq

/-- One drawable unit's render descriptor (struct Batch; fields as used by
Batch.cpp — the struct declaration lives in a header not under src/). -/
structure Batch where
  geometry : Nat
  material : Nat
  pass : Nat
  vertexShader : Nat
  pixelShader : Nat
  camera : Nat
  lightQueue : Nat
  vertexShaderIndex : Nat
  worldTransform : Nat
  distance : Nat
  sortKey : Nat
  hasPriority : Bool
  geometryType : GeometryType
  overrideView : Bool
  shaderData : Bool
  shaderDataSize : Nat

/-- One instance of a batch group: transform reference and camera distance
(struct InstanceData). -/
structure InstanceData where
  worldTransform : Nat
  distance : Nat
  deriving Inhabited

/-- An aggregation of batches sharing render state, candidate for one
instanced draw call (struct BatchGroup). -/
structure BatchGroup where
  geometry : Nat
  material : Nat
  pass : Nat
  vertexShader : Nat
  pixelShader : Nat
  camera : Nat
  lightQueue : Nat
  vertexShaderIndex : Nat
  instances : List InstanceData
  startIndex : Nat

/-- Grouping key: light queue, pass, material, geometry (struct
BatchGroupKey, as filled in by BatchQueue::AddBatch). -/
structure BatchGroupKey where
  lightQueue : Nat
  pass : Nat
  material : Nat
  geometry : Nat
  deriving DecidableEq

/-- The per-pass batch container (class BatchQueue).  The source's
`Map<BatchGroupKey, BatchGroup>` is modelled as an association list with
unique keys; its iteration order (key order on opaque pointers in the
source) is abstracted as the list order, used consistently by every
operation. -/
structure BatchQueue where
  batches : List Batch
  sortedPriorityBatches : List Batch
  sortedBatches : List Batch
  priorityBatchGroups : List (BatchGroupKey × BatchGroup)
  batchGroups : List (BatchGroupKey × BatchGroup)
  sortedPriorityBatchGroups : List BatchGroup
  sortedBatchGroups : List BatchGroup

/-- Renderer policy consumed by Batch.cpp: minimum instance-group size and
maximum instanced triangle count. -/
structure Renderer where
  minInstanceGroupSize : Nat
  maxInstanceTriangles : Nat

/-- Batch::CalculateSortKey.  The source derives a small integer from each
component pointer (`ptr / sizeof(T)`); that pointer-to-integer map is
abstracted: the arguments here are the per-component integer identities
before masking.  The C++ computation is in `unsigned long long`; the packed
value is provably below `2 ^ 64` so no wrap occurs. -/
def calculateSortKey (hasPriority : Bool) (lightQueueId passId materialId geometryId : Nat) :
    Nat :=
  let lightQueue := lightQueueId &&& 0x7fff
  let pass := passId &&& 0xffff
  let material := materialId &&& 0xffff
  let geometry := geometryId &&& 0xffff
  let lightQueue2 := if hasPriority then lightQueue ||| 0x8000 else lightQueue
  (lightQueue2 <<< 48) ||| (pass <<< 32) ||| (material <<< 16) ||| geometry

/-- Disjoint-field bitwise-or is addition. -/
theorem lor_eq_add_pow (n k b : Nat) (hb : b < 2 ^ n) : (2 ^ n * k) ||| b = 2 ^ n * k + b :=
  (Nat.mul_add_lt_is_or hb k).symm

/-- The packed sort key decomposes additively:
priority bit at bit 63, light-queue field (15 bits) at bits 48-62, pass
(16 bits) at 32-47, material (16 bits) at 16-31, geometry (16 bits) at
0-15. -/
theorem calculateSortKey_decomp (p : Bool) (lq pa ma ge : Nat) :
    calculateSortKey p lq pa ma ge =
      (if p then 1 else 0) * 2 ^ 63 + lq % 2 ^ 15 * 2 ^ 48 + pa % 2 ^ 16 * 2 ^ 32 +
        ma % 2 ^ 16 * 2 ^ 16 + ge % 2 ^ 16 := by
  unfold calculateSortKey
  have e15 : (0x7fff : Nat) = 2 ^ 15 - 1 := by norm_num
  have e16 : (0xffff : Nat) = 2 ^ 16 - 1 := by norm_num
  rw [e15, e16, Nat.and_pow_two_sub_one_eq_mod, Nat.and_pow_two_sub_one_eq_mod,
    Nat.and_pow_two_sub_one_eq_mod, Nat.and_pow_two_sub_one_eq_mod]
  dsimp only
  have hL : lq % 2 ^ 15 < 2 ^ 15 := Nat.mod_lt _ (by norm_num)
  have hP : pa % 2 ^ 16 < 2 ^ 16 := Nat.mod_lt _ (by norm_num)
  have hM : ma % 2 ^ 16 < 2 ^ 16 := Nat.mod_lt _ (by norm_num)
  have hG : ge % 2 ^ 16 < 2 ^ 16 := Nat.mod_lt _ (by norm_num)
  set L := lq % 2 ^ 15 with hLdef
  set P := pa % 2 ^ 16 with hPdef
  set M := ma % 2 ^ 16 with hMdef
  set G := ge % 2 ^ 16 with hGdef
  have hpri : (if p then L ||| 0x8000 else L) = (if p then 1 else 0) * 2 ^ 15 + L := by
    cases p with
    | false => simp
    | true =>
      have : (0x8000 : Nat) = 2 ^ 15 := by norm_num
      rw [if_pos rfl, if_pos rfl, this, Nat.lor_comm, one_mul]
      have := lor_eq_add_pow 15 1 L hL
      simpa [Nat.mul_one] using this
  rw [hpri]
  rw [Nat.shiftLeft_eq, Nat.shiftLeft_eq, Nat.shiftLeft_eq]
  -- top two fields
  have h1 : ((if p then 1 else 0) * 2 ^ 15 + L) * 2 ^ 48 ||| P * 2 ^ 32 =
      ((if p then 1 else 0) * 2 ^ 15 + L) * 2 ^ 48 + P * 2 ^ 32 := by
    have hshape : ((if p then 1 else 0) * 2 ^ 15 + L) * 2 ^ 48 =
        2 ^ 48 * ((if p then 1 else 0) * 2 ^ 15 + L) := by ring
    have hb : P * 2 ^ 32 < 2 ^ 48 := by
      have : P * 2 ^ 32 < 2 ^ 16 * 2 ^ 32 := by
        exact Nat.mul_lt_mul_of_lt_of_le hP (le_refl _) (by norm_num)
      simpa using this.trans_le (by norm_num)
    rw [hshape, lor_eq_add_pow 48 _ _ hb]
  rw [h1]
  -- third field
  have h2 : ((if p then 1 else 0) * 2 ^ 15 + L) * 2 ^ 48 + P * 2 ^ 32 ||| M * 2 ^ 16 =
      ((if p then 1 else 0) * 2 ^ 15 + L) * 2 ^ 48 + P * 2 ^ 32 + M * 2 ^ 16 := by
    have hshape : ((if p then 1 else 0) * 2 ^ 15 + L) * 2 ^ 48 + P * 2 ^ 32 =
        2 ^ 32 * (((if p then 1 else 0) * 2 ^ 15 + L) * 2 ^ 16 + P) := by ring
    have hb : M * 2 ^ 16 < 2 ^ 32 := by
      have : M * 2 ^ 16 < 2 ^ 16 * 2 ^ 16 := by
        exact Nat.mul_lt_mul_of_lt_of_le hM (le_refl _) (by norm_num)
      simpa using this.trans_le (by norm_num)
    rw [hshape, lor_eq_add_pow 32 _ _ hb, ← hshape]
  rw [h2]
  -- last field
  have h3 : ((if p then 1 else 0) * 2 ^ 15 + L) * 2 ^ 48 + P * 2 ^ 32 + M * 2 ^ 16 ||| G =
      ((if p then 1 else 0) * 2 ^ 15 + L) * 2 ^ 48 + P * 2 ^ 32 + M * 2 ^ 16 + G := by
    have hshape : ((if p then 1 else 0) * 2 ^ 15 + L) * 2 ^ 48 + P * 2 ^ 32 + M * 2 ^ 16 =
        2 ^ 16 * (((if p then 1 else 0) * 2 ^ 15 + L) * 2 ^ 32 + P * 2 ^ 16 + M) := by ring
    have hb : G < 2 ^ 16 := hG
    rw [hshape, lor_eq_add_pow 16 _ _ hb, ← hshape]
  rw [h3]
  ring

/-- C4: Batch::CalculateSortKey produces the 64-bit key with the priority
flag at bit 63, the light-context field masked to 15 bits at bits 48-62,
the pass field masked to 16 bits at bits 32-47, the material field masked
to 16 bits at bits 16-31 and the geometry field masked to 16 bits at bits
0-15; consequently the key of any priority batch is strictly greater than
the key of any non-priority batch. -/
theorem calculateSortKey_spec :
    (∀ (p : Bool) (lq pa ma ge : Nat),
      calculateSortKey p lq pa ma ge =
        (if p then 1 else 0) * 2 ^ 63 + lq % 2 ^ 15 * 2 ^ 48 + pa % 2 ^ 16 * 2 ^ 32 +
          ma % 2 ^ 16 * 2 ^ 16 + ge % 2 ^ 16) ∧
    (∀ (p : Bool) (lq pa ma ge : Nat), calculateSortKey p lq pa ma ge < 2 ^ 64) ∧
    (∀ lq pa ma ge lq' pa' ma' ge' : Nat,
      calculateSortKey false lq' pa' ma' ge' < calculateSortKey true lq pa ma ge) := by
  refine ⟨calculateSortKey_decomp, ?_, ?_⟩
  · intro p lq pa ma ge
    rw [calculateSortKey_decomp]
    have hL : lq % 2 ^ 15 < 2 ^ 15 := Nat.mod_lt _ (by norm_num)
    have hP : pa % 2 ^ 16 < 2 ^ 16 := Nat.mod_lt _ (by norm_num)
    have hM : ma % 2 ^ 16 < 2 ^ 16 := Nat.mod_lt _ (by norm_num)
    have hG : ge % 2 ^ 16 < 2 ^ 16 := Nat.mod_lt _ (by norm_num)
    cases p <;> simp <;> omega
  · intro lq pa ma ge lq' pa' ma' ge'
    rw [calculateSortKey_decomp, calculateSortKey_decomp]
    have hL : lq' % 2 ^ 15 < 2 ^ 15 := Nat.mod_lt _ (by norm_num)
    have hP : pa' % 2 ^ 16 < 2 ^ 16 := Nat.mod_lt _ (by norm_num)
    have hM : ma' % 2 ^ 16 < 2 ^ 16 := Nat.mod_lt _ (by norm_num)
    have hG : ge' % 2 ^ 16 < 2 ^ 16 := Nat.mod_lt _ (by norm_num)
    simp only [Bool.false_eq_true, if_false, if_true, reduceIte]
    omega

/-- CompareBatchesFrontToBack (Batch.cpp line 41): strict comparator,
descending sort key with ties broken by ascending distance. -/
def compareBatchesFrontToBack (lhs rhs : Batch) : Bool :=
  if lhs.sortKey = rhs.sortKey then decide (lhs.distance < rhs.distance)
  else decide (lhs.sortKey > rhs.sortKey)

/-- CompareBatchesBackToFront (Batch.cpp line 49): strict comparator,
descending distance with ties broken by descending sort key. -/
def compareBatchesBackToFront (lhs rhs : Batch) : Bool :=
  if lhs.distance = rhs.distance then decide (lhs.sortKey > rhs.sortKey)
  else decide (lhs.distance > rhs.distance)

/-- CompareInstancesFrontToBack (Batch.cpp line 57). -/
def compareInstancesFrontToBack (lhs rhs : InstanceData) : Bool :=
  decide (lhs.distance < rhs.distance)

/-- Distance of a group's first instance.  The source reads
`instances_[0]` unconditionally in CompareBatchGroupsFrontToBack; an empty
instance list (never produced by AddBatch) is given first distance 0. -/
def BatchGroup.firstDistance (g : BatchGroup) : Nat :=
  match g.instances with
  | [] => 0
  | i :: _ => i.distance

/-- CompareBatchGroupsFrontToBack (Batch.cpp line 62). -/
def compareBatchGroupsFrontToBack (lhs rhs : BatchGroup) : Bool :=
  decide (lhs.firstDistance < rhs.firstDistance)

/-- Non-strict order induced by a strict-weak-order comparator: `a` may be
placed before `b` exactly when `b` does not strictly precede `a`. -/
def cmpRel (lt : α → α → Bool) (a b : α) : Prop := lt b a = false

instance (lt : α → α → Bool) : DecidableRel (cmpRel lt) := fun a b =>
  instDecidableEqBool (lt b a) false

/-- Modelled from the spec: the `Sort` routine used by BatchQueue (Sort.h,
not under src/) reorders a sequence by a strict-weak-order comparator so
that no element strictly precedes an element placed before it; modelled as
insertion sort over the induced non-strict order. -/
def sortByComp (lt : α → α → Bool) (l : List α) : List α :=
  List.insertionSort (cmpRel lt) l

theorem cmpRel_fb_iff (a b : Batch) :
    cmpRel compareBatchesFrontToBack a b ↔
      b.sortKey < a.sortKey ∨ (a.sortKey = b.sortKey ∧ a.distance ≤ b.distance) := by
  unfold cmpRel compareBatchesFrontToBack
  split_ifs with h
  · simp only [decide_eq_false_iff_not, Nat.not_lt]
    omega
  · simp only [decide_eq_false_iff_not, gt_iff_lt, Nat.not_lt]
    omega

theorem cmpRel_btf_iff (a b : Batch) :
    cmpRel compareBatchesBackToFront a b ↔
      b.distance < a.distance ∨ (a.distance = b.distance ∧ b.sortKey ≤ a.sortKey) := by
  unfold cmpRel compareBatchesBackToFront
  split_ifs with h
  · simp only [decide_eq_false_iff_not, gt_iff_lt, Nat.not_lt]
    omega
  · simp only [decide_eq_false_iff_not, gt_iff_lt, Nat.not_lt]
    omega

theorem cmpRel_inst_iff (a b : InstanceData) :
    cmpRel compareInstancesFrontToBack a b ↔ a.distance ≤ b.distance := by
  unfold cmpRel compareInstancesFrontToBack
  simp only [decide_eq_false_iff_not, Nat.not_lt]

theorem cmpRel_group_iff (a b : BatchGroup) :
    cmpRel compareBatchGroupsFrontToBack a b ↔ a.firstDistance ≤ b.firstDistance := by
  unfold cmpRel compareBatchGroupsFrontToBack
  simp only [decide_eq_false_iff_not, Nat.not_lt]

instance : IsTotal Batch (cmpRel compareBatchesFrontToBack) :=
  ⟨fun a b => by rw [cmpRel_fb_iff, cmpRel_fb_iff]; omega⟩

instance : IsTrans Batch (cmpRel compareBatchesFrontToBack) :=
  ⟨fun a b c hab hbc => by
    rw [cmpRel_fb_iff] at hab hbc
    rw [cmpRel_fb_iff]
    omega⟩

instance : IsTotal Batch (cmpRel compareBatchesBackToFront) :=
  ⟨fun a b => by rw [cmpRel_btf_iff, cmpRel_btf_iff]; omega⟩

instance : IsTrans Batch (cmpRel compareBatchesBackToFront) :=
  ⟨fun a b c hab hbc => by
    rw [cmpRel_btf_iff] at hab hbc
    rw [cmpRel_btf_iff]
    omega⟩

instance : IsTotal InstanceData (cmpRel compareInstancesFrontToBack) :=
  ⟨fun a b => by rw [cmpRel_inst_iff, cmpRel_inst_iff]; omega⟩

instance : IsTrans InstanceData (cmpRel compareInstancesFrontToBack) :=
  ⟨fun a b c hab hbc => by
    rw [cmpRel_inst_iff] at hab hbc
    rw [cmpRel_inst_iff]
    omega⟩

instance : IsTotal BatchGroup (cmpRel compareBatchGroupsFrontToBack) :=
  ⟨fun a b => by rw [cmpRel_group_iff, cmpRel_group_iff]; omega⟩

instance : IsTrans BatchGroup (cmpRel compareBatchGroupsFrontToBack) :=
  ⟨fun a b c hab hbc => by
    rw [cmpRel_group_iff] at hab hbc
    rw [cmpRel_group_iff]
    omega⟩

/-- The sorted output is pairwise ordered by the comparator's induced
non-strict order. -/
theorem sortByComp_pairwise (lt : α → α → Bool) [IsTotal α (cmpRel lt)]
    [IsTrans α (cmpRel lt)] (l : List α) :
    List.Pairwise (cmpRel lt) (sortByComp lt l) :=
  List.sorted_insertionSort (cmpRel lt) l

theorem mem_sortByComp (lt : α → α → Bool) {l : List α} {x : α} :
    x ∈ sortByComp lt l ↔ x ∈ l :=
  List.mem_insertionSort (cmpRel lt)

/-- BatchQueue::SortBackToFront (Batch.cpp line 578): clears the sorted
priority list, sorts all loose batches back to front, and lists the batch
groups without reordering them. -/
def BatchQueue.sortBackToFront (q : BatchQueue) : BatchQueue :=
  { q with
    sortedPriorityBatches := []
    sortedBatches := sortByComp compareBatchesBackToFront q.batches
    sortedPriorityBatchGroups := q.priorityBatchGroups.map (fun kg => kg.2)
    sortedBatchGroups := q.batchGroups.map (fun kg => kg.2) }

/-- BatchQueue::SortFrontToBack (Batch.cpp line 600): divides loose
batches into priority and non-priority, sorts each front to back, sorts
every group's instances by ascending distance, and sorts the listed groups
by the distance of their first instance. -/
def BatchQueue.sortFrontToBack (q : BatchQueue) : BatchQueue :=
  let sortedPriority :=
    sortByComp compareBatchesFrontToBack (q.batches.filter (fun b => b.hasPriority))
  let sortedNon :=
    sortByComp compareBatchesFrontToBack (q.batches.filter (fun b => !b.hasPriority))
  let pGroups := q.priorityBatchGroups.map (fun kg =>
    (kg.1, { kg.2 with instances := sortByComp compareInstancesFrontToBack kg.2.instances }))
  let nGroups := q.batchGroups.map (fun kg =>
    (kg.1, { kg.2 with instances := sortByComp compareInstancesFrontToBack kg.2.instances }))
  { q with
    sortedPriorityBatches := sortedPriority
    sortedBatches := sortedNon
    priorityBatchGroups := pGroups
    batchGroups := nGroups
    sortedPriorityBatchGroups :=
      sortByComp compareBatchGroupsFrontToBack (pGroups.map (fun kg => kg.2))
    sortedBatchGroups :=
      sortByComp compareBatchGroupsFrontToBack (nGroups.map (fun kg => kg.2)) }

/-- Modelled from the spec (§4.4 Draw): the queue's loose-batch submission
order — sorted priority loose batches first, then sorted non-priority loose
batches (the queue-level draw loop lives outside Batch.cpp). -/
def BatchQueue.looseDrawOrder (q : BatchQueue) : List Batch :=
  q.sortedPriorityBatches ++ q.sortedBatches

/-- Every batch with the priority flag appears strictly before every batch
without it. -/
def priorityStrictlyFirst (l : List Batch) : Prop :=
  List.Pairwise (fun a b => b.hasPriority = true → a.hasPriority = true) l

/-- A loose priority batch at distance 1 with its sort key computed. -/
def nearPriorityBatch : Batch :=
  { geometry := 1, material := 1, pass := 1, vertexShader := 1, pixelShader := 1,
    camera := 1, lightQueue := 0, vertexShaderIndex := 0, worldTransform := 1,
    distance := 1, sortKey := calculateSortKey true 0 1 1 1,
    hasPriority := true, geometryType := GeometryType.geomStatic,
    overrideView := true, shaderData := false, shaderDataSize := 0 }

/-- A loose non-priority batch at distance 2 with its sort key computed. -/
def farPlainBatch : Batch :=
  { geometry := 1, material := 1, pass := 1, vertexShader := 1, pixelShader := 1,
    camera := 1, lightQueue := 0, vertexShaderIndex := 0, worldTransform := 2,
    distance := 2, sortKey := calculateSortKey false 0 1 1 1,
    hasPriority := false, geometryType := GeometryType.geomStatic,
    overrideView := true, shaderData := false, shaderDataSize := 0 }

/-- A queue holding exactly the two loose batches above. -/
def twoLooseQueue : BatchQueue :=
  { batches := [nearPriorityBatch, farPlainBatch],
    sortedPriorityBatches := [], sortedBatches := [],
    priorityBatchGroups := [], batchGroups := [],
    sortedPriorityBatchGroups := [], sortedBatchGroups := [] }

/-- C1 counterexample: SortBackToFront orders loose batches by descending
distance regardless of the priority flag — on a queue holding a priority
batch at distance 1 and a non-priority batch at distance 2, both with
computed sort keys, the non-priority batch is submitted first, refuting
the claim for the back-to-front sort policy. -/
theorem sortBackToFront_priority_violated :
    ¬ priorityStrictlyFirst (BatchQueue.looseDrawOrder
      (BatchQueue.sortBackToFront twoLooseQueue)) := by
  have h : BatchQueue.looseDrawOrder (BatchQueue.sortBackToFront twoLooseQueue) =
      [farPlainBatch, nearPriorityBatch] := by rfl
  rw [h]
  intro hp
  have h1 := (List.pairwise_cons.1 hp).1 nearPriorityBatch (by simp)
  have h2 : farPlainBatch.hasPriority = true := h1 rfl
  simp [farPlainBatch] at h2

/-- C1 amended: after SortFrontToBack (the claim as stated also covered
SortBackToFront, which the counterexample refutes), every loose batch with
the priority flag set appears strictly before every loose batch without it
in the queue's loose-batch submission order, regardless of sort-key and
distance values. -/
theorem sortFrontToBack_priorityFirst (q : BatchQueue) :
    priorityStrictlyFirst (BatchQueue.looseDrawOrder (BatchQueue.sortFrontToBack q)) := by
  unfold priorityStrictlyFirst BatchQueue.looseDrawOrder BatchQueue.sortFrontToBack
  rw [List.pairwise_append]
  refine ⟨?_, ?_, ?_⟩
  · refine List.pairwise_of_forall_mem_list ?_
    intro a ha b hb
    intro _
    have := (mem_sortByComp _).1 ha
    exact (List.mem_filter.1 this).2
  · refine List.pairwise_of_forall_mem_list ?_
    intro a ha b hb
    intro hbp
    have := (mem_sortByComp _).1 hb
    have hb' := (List.mem_filter.1 this).2
    simp only [Bool.not_eq_true'] at hb'
    rw [hbp] at hb'
    cases hb'
  · intro a ha b hb
    intro _
    have := (mem_sortByComp _).1 ha
    exact (List.mem_filter.1 this).2

/-- Adjacent-pair ordering of a front-to-back sorted batch list. -/
theorem sortByComp_fb_chain (l : List Batch) :
    List.Chain'
      (fun a b => b.sortKey ≤ a.sortKey ∧ (a.sortKey = b.sortKey → a.distance ≤ b.distance))
      (sortByComp compareBatchesFrontToBack l) := by
  refine List.Pairwise.chain' ?_
  refine (sortByComp_pairwise compareBatchesFrontToBack l).imp ?_
  intro a b hab
  rw [cmpRel_fb_iff] at hab
  omega

/-- Adjacent-pair ordering of an instance list sorted front to back. -/
theorem sortByComp_inst_chain (l : List InstanceData) :
    List.Chain' (fun x y => x.distance ≤ y.distance)
      (sortByComp compareInstancesFrontToBack l) := by
  refine List.Pairwise.chain' ?_
  refine (sortByComp_pairwise compareInstancesFrontToBack l).imp ?_
  intro a b hab
  rw [cmpRel_inst_iff] at hab
  exact hab

/-- Adjacent-pair ordering of a group list sorted front to back. -/
theorem sortByComp_group_chain (l : List BatchGroup) :
    List.Chain' (fun g h => BatchGroup.firstDistance g ≤ BatchGroup.firstDistance h)
      (sortByComp compareBatchGroupsFrontToBack l) := by
  refine List.Pairwise.chain' ?_
  refine (sortByComp_pairwise compareBatchGroupsFrontToBack l).imp ?_
  intro a b hab
  rw [cmpRel_group_iff] at hab
  exact hab

/-- C5: after SortFrontToBack, each sorted loose-batch list (priority and
non-priority separately) has adjacent pairs with descending sort key, ties
broken by ascending distance; every group's instance list is sorted by
ascending distance; and both sorted group lists are ordered by ascending
distance of each group's first (post-sort) instance. -/
theorem sortFrontToBack_ordering (q : BatchQueue) :
    List.Chain'
      (fun a b => b.sortKey ≤ a.sortKey ∧ (a.sortKey = b.sortKey → a.distance ≤ b.distance))
      (BatchQueue.sortFrontToBack q).sortedPriorityBatches ∧
    List.Chain'
      (fun a b => b.sortKey ≤ a.sortKey ∧ (a.sortKey = b.sortKey → a.distance ≤ b.distance))
      (BatchQueue.sortFrontToBack q).sortedBatches ∧
    (∀ kg ∈ (BatchQueue.sortFrontToBack q).priorityBatchGroups,
      List.Chain' (fun x y => x.distance ≤ y.distance) kg.2.instances) ∧
    (∀ kg ∈ (BatchQueue.sortFrontToBack q).batchGroups,
      List.Chain' (fun x y => x.distance ≤ y.distance) kg.2.instances) ∧
    List.Chain' (fun g h => BatchGroup.firstDistance g ≤ BatchGroup.firstDistance h)
      (BatchQueue.sortFrontToBack q).sortedPriorityBatchGroups ∧
    List.Chain' (fun g h => BatchGroup.firstDistance g ≤ BatchGroup.firstDistance h)
      (BatchQueue.sortFrontToBack q).sortedBatchGroups := by
  refine ⟨sortByComp_fb_chain _, sortByComp_fb_chain _, ?_, ?_, ?_, ?_⟩
  · intro kg hkg
    unfold BatchQueue.sortFrontToBack at hkg
    simp only [List.mem_map] at hkg
    obtain ⟨kg', _, rfl⟩ := hkg
    exact sortByComp_inst_chain _
  · intro kg hkg
    unfold BatchQueue.sortFrontToBack at hkg
    simp only [List.mem_map] at hkg
    obtain ⟨kg', _, rfl⟩ := hkg
    exact sortByComp_inst_chain _
  · exact sortByComp_group_chain _
  · exact sortByComp_group_chain _

/-- C6: after SortBackToFront, adjacent pairs of the sorted loose-batch
output have descending distance with ties broken by descending sort key,
and no group is touched: both group maps — hence every group's instance
sequence — are exactly as before the sort. -/
theorem sortBackToFront_ordering (q : BatchQueue) :
    List.Chain'
      (fun a b => b.distance ≤ a.distance ∧ (a.distance = b.distance → b.sortKey ≤ a.sortKey))
      (BatchQueue.sortBackToFront q).sortedBatches ∧
    (BatchQueue.sortBackToFront q).priorityBatchGroups = q.priorityBatchGroups ∧
    (BatchQueue.sortBackToFront q).batchGroups = q.batchGroups := by
  refine ⟨?_, rfl, rfl⟩
  refine List.Pairwise.chain' ?_
  refine (sortByComp_pairwise compareBatchesBackToFront q.batches).imp ?_
  intro a b hab
  rw [cmpRel_btf_iff] at hab
  omega

/-- BatchQueue::Clear (Batch.cpp line 533); the sorted group lists are not
cleared by the source either. -/
def BatchQueue.clear (q : BatchQueue) : BatchQueue :=
  { q with batches := [], sortedPriorityBatches := [], sortedBatches := [],
           priorityBatchGroups := [], batchGroups := [] }

/-- The grouping key AddBatch builds from a batch (Batch.cpp line 549). -/
def instancingKey (b : Batch) : BatchGroupKey :=
  { lightQueue := b.lightQueue, pass := b.pass, material := b.material,
    geometry := b.geometry }

/-- The loose-batch condition of AddBatch (Batch.cpp line 545): caller
forces no instancing, geometry type is not static, a custom view is set,
or per-instance shader data is attached. -/
def looseCond (b : Batch) (noInstancing : Bool) : Bool :=
  noInstancing || (b.geometryType != GeometryType.geomStatic) || b.overrideView || b.shaderData

/-- The instance entry AddBatch appends. -/
def instOf (b : Batch) : InstanceData :=
  { worldTransform := b.worldTransform, distance := b.distance }

/-- The fresh group AddBatch seeds from the first matching batch
(Batch.cpp line 561).  `startIndex` takes the sentinel from the header's
default constructor, which is not under src/ — modelled from the spec:
"a sentinel meaning not yet written". -/
def newGroupOf (b : Batch) : BatchGroup :=
  { geometry := b.geometry, material := b.material, pass := b.pass,
    vertexShader := b.vertexShader, pixelShader := b.pixelShader,
    camera := b.camera, lightQueue := b.lightQueue,
    vertexShaderIndex := b.vertexShaderIndex,
    instances := [instOf b],
    startIndex := M_MAX_UNSIGNED }

/-- Find-or-insert into a group map (Map::Find / Map::Insert of
Batch.cpp lines 557-574): an existing key gets the instance entry
appended, a new key is added with a freshly seeded group. -/
def addToGroups (b : Batch) : List (BatchGroupKey × BatchGroup) → List (BatchGroupKey × BatchGroup)
  | [] => [(instancingKey b, newGroupOf b)]
  | (k, g) :: rest =>
    if k = instancingKey b then
      (k, { g with instances := g.instances ++ [instOf b] }) :: rest
    else
      (k, g) :: addToGroups b rest

/-- BatchQueue::AddBatch (Batch.cpp line 542). -/
def BatchQueue.addBatch (q : BatchQueue) (b : Batch) (noInstancing : Bool) : BatchQueue :=
  if looseCond b noInstancing then
    { q with batches := q.batches ++ [b] }
  else if b.hasPriority then
    { q with priorityBatchGroups := addToGroups b q.priorityBatchGroups }
  else
    { q with batchGroups := addToGroups b q.batchGroups }

/-- A sequence of AddBatch calls, applied first to last. -/
def BatchQueue.addBatches (q : BatchQueue) : List (Batch × Bool) → BatchQueue
  | [] => q
  | x :: rest => BatchQueue.addBatches (BatchQueue.addBatch q x.1 x.2) rest

/-- First-match association-list lookup (Map::Find). -/
def groupLookup (gs : List (BatchGroupKey × BatchGroup)) (k : BatchGroupKey) :
    Option BatchGroup :=
  match gs with
  | [] => none
  | (k', g) :: rest => if k' = k then some g else groupLookup rest k

/-- Selects the priority or the non-priority group map. -/
def groupsSel (p : Bool) (q : BatchQueue) : List (BatchGroupKey × BatchGroup) :=
  if p then q.priorityBatchGroups else q.batchGroups

/-- The loose batches a call sequence produces, in submission order. -/
def looseOf (xs : List (Batch × Bool)) : List Batch :=
  (xs.filter (fun x => looseCond x.1 x.2)).map (fun x => x.1)

/-- The instanceable batches of a call sequence destined for the group map
selected by `p` at key `k`, in submission order. -/
def groupedBatches (p : Bool) (k : BatchGroupKey) (xs : List (Batch × Bool)) : List Batch :=
  (xs.filter (fun x =>
    !looseCond x.1 x.2 && (x.1.hasPriority == p) && (instancingKey x.1 == k))).map (fun x => x.1)

/-- Threads a run of matching batches into an optional group the way
AddBatch does: the first batch seeds a fresh group, later ones append
their instance entry. -/
def groupAccum (o : Option BatchGroup) (bs : List Batch) : Option BatchGroup :=
  bs.foldl (fun o b =>
    match o with
    | none => some (newGroupOf b)
    | some g => some { g with instances := g.instances ++ [instOf b] }) o

theorem addBatches_batches (xs : List (Batch × Bool)) :
    ∀ q : BatchQueue, (BatchQueue.addBatches q xs).batches = q.batches ++ looseOf xs := by
  induction xs with
  | nil => intro q; simp [BatchQueue.addBatches, looseOf]
  | cons x rest ih =>
    intro q
    rw [BatchQueue.addBatches, ih]
    unfold BatchQueue.addBatch looseOf
    by_cases h : looseCond x.1 x.2 = true
    · simp [h, List.filter_cons]
    · rw [Bool.not_eq_true] at h
      by_cases hp : x.1.hasPriority = true
      · simp [h, hp, List.filter_cons, looseOf]
      · rw [Bool.not_eq_true] at hp
        simp [h, hp, List.filter_cons, looseOf]

theorem groupLookup_addToGroups (b : Batch) (gs : List (BatchGroupKey × BatchGroup))
    (k : BatchGroupKey) :
    groupLookup (addToGroups b gs) k =
      if k = instancingKey b then
        match groupLookup gs k with
        | none => some (newGroupOf b)
        | some g => some { g with instances := g.instances ++ [instOf b] }
      else groupLookup gs k := by
  induction gs with
  | nil =>
    by_cases h : k = instancingKey b
    · simp [addToGroups, groupLookup, h]
    · have h2 : ¬ instancingKey b = k := fun he => h he.symm
      simp [addToGroups, groupLookup, h, h2]
  | cons kg rest ih =>
    obtain ⟨k', g⟩ := kg
    by_cases h1 : k' = instancingKey b
    · by_cases h2 : k' = k
      · subst h2
        simp [addToGroups, groupLookup, h1]
      · have hk : ¬ k = instancingKey b := by
          intro he; exact h2 (h1.trans he.symm)
        have hk2 : ¬ instancingKey b = k := fun he => hk he.symm
        simp [addToGroups, groupLookup, h1, h2, hk, hk2]
    · by_cases h2 : k' = k
      · subst h2
        have hk : ¬ k' = instancingKey b := h1
        simp [addToGroups, groupLookup, h1, hk]
      · simp [addToGroups, groupLookup, h1, h2, ih]

theorem groupsSel_addBatch_loose {b : Batch} {ni : Bool} (h : looseCond b ni = true)
    (p : Bool) (q : BatchQueue) :
    groupsSel p (BatchQueue.addBatch q b ni) = groupsSel p q := by
  cases p <;> simp [BatchQueue.addBatch, groupsSel, h]

theorem groupsSel_addBatch_match {b : Batch} {ni : Bool} (h : looseCond b ni = false)
    {p : Bool} (hp : b.hasPriority = p) (q : BatchQueue) :
    groupsSel p (BatchQueue.addBatch q b ni) = addToGroups b (groupsSel p q) := by
  cases p <;> simp [BatchQueue.addBatch, groupsSel, h, hp]

theorem groupsSel_addBatch_other {b : Batch} {ni : Bool} (h : looseCond b ni = false)
    {p : Bool} (hp : b.hasPriority ≠ p) (q : BatchQueue) :
    groupsSel p (BatchQueue.addBatch q b ni) = groupsSel p q := by
  cases p with
  | false =>
    have hb : b.hasPriority = true := by
      cases hb : b.hasPriority with
      | false => exact absurd hb hp
      | true => rfl
    simp [BatchQueue.addBatch, groupsSel, h, hb]
  | true =>
    have hb : b.hasPriority = false := by
      cases hb : b.hasPriority with
      | false => rfl
      | true => exact absurd hb hp
    simp [BatchQueue.addBatch, groupsSel, h, hb]

theorem addBatches_groupLookup (xs : List (Batch × Bool)) :
    ∀ (q : BatchQueue) (p : Bool) (k : BatchGroupKey),
      groupLookup (groupsSel p (BatchQueue.addBatches q xs)) k =
        groupAccum (groupLookup (groupsSel p q) k) (groupedBatches p k xs) := by
  induction xs with
  | nil => intro q p k; simp [BatchQueue.addBatches, groupedBatches, groupAccum]
  | cons x rest ih =>
    intro q p k
    rw [BatchQueue.addBatches, ih]
    by_cases h : looseCond x.1 x.2 = true
    · rw [groupsSel_addBatch_loose h]
      have : groupedBatches p k (x :: rest) = groupedBatches p k rest := by
        simp [groupedBatches, List.filter_cons, h]
      rw [this]
    · rw [Bool.not_eq_true] at h
      by_cases hp : x.1.hasPriority = p
      · rw [groupsSel_addBatch_match h hp]
        rw [groupLookup_addToGroups]
        by_cases hk : k = instancingKey x.1
        · have : groupedBatches p k (x :: rest) = x.1 :: groupedBatches p k rest := by
            simp [groupedBatches, List.filter_cons, h, hp, hk.symm]
          rw [this, if_pos hk]
          rfl
        · have : groupedBatches p k (x :: rest) = groupedBatches p k rest := by
            have : ¬ instancingKey x.1 = k := fun he => hk he.symm
            simp [groupedBatches, List.filter_cons, h, this]
          rw [this, if_neg hk]
      · rw [groupsSel_addBatch_other h hp]
        have : groupedBatches p k (x :: rest) = groupedBatches p k rest := by
          have hb : (x.1.hasPriority == p) = false := by
            simp only [beq_eq_false_iff_ne, ne_eq]
            exact hp
          simp [groupedBatches, List.filter_cons, h, hb]
        rw [this]

theorem groupAccum_some (l : List Batch) :
    ∀ g : BatchGroup, groupAccum (some g) l =
      some { g with instances := g.instances ++ l.map instOf } := by
  induction l with
  | nil => intro g; simp [groupAccum]
  | cons b rest ih =>
    intro g
    have h1 : groupAccum (some g) (b :: rest) =
        groupAccum (some { g with instances := g.instances ++ [instOf b] }) rest := rfl
    rw [h1, ih]
    simp

theorem groupAccum_none (bs : List Batch) :
    groupAccum none bs =
      match bs with
      | [] => none
      | b :: rest => some { newGroupOf b with instances := (b :: rest).map instOf } := by
  cases bs with
  | nil => rfl
  | cons b rest =>
    have h1 : groupAccum none (b :: rest) = groupAccum (some (newGroupOf b)) rest := rfl
    rw [h1, groupAccum_some]
    simp [newGroupOf]

theorem addToGroups_keys (b : Batch) (gs : List (BatchGroupKey × BatchGroup)) :
    (addToGroups b gs).map (fun kg => kg.1) =
      if instancingKey b ∈ gs.map (fun kg => kg.1) then gs.map (fun kg => kg.1)
      else gs.map (fun kg => kg.1) ++ [instancingKey b] := by
  induction gs with
  | nil => simp [addToGroups]
  | cons kg rest ih =>
    obtain ⟨k', g⟩ := kg
    by_cases h1 : k' = instancingKey b
    · subst h1
      simp [addToGroups]
    · have h2 : ¬ instancingKey b = k' := fun he => h1 he.symm
      by_cases h3 : instancingKey b ∈ rest.map (fun kg => kg.1)
      · simp [addToGroups, h1, h2, h3, ih]
      · simp [addToGroups, h1, h2, h3, ih]

theorem addToGroups_keys_nodup (b : Batch) (gs : List (BatchGroupKey × BatchGroup))
    (h : (gs.map (fun kg => kg.1)).Nodup) :
    ((addToGroups b gs).map (fun kg => kg.1)).Nodup := by
  rw [addToGroups_keys]
  by_cases hm : instancingKey b ∈ gs.map (fun kg => kg.1)
  · rw [if_pos hm]; exact h
  · rw [if_neg hm]
    simp [List.nodup_append, h, hm]

theorem addBatches_keys_nodup (xs : List (Batch × Bool)) :
    ∀ (q : BatchQueue) (p : Bool),
      ((groupsSel p q).map (fun kg => kg.1)).Nodup →
      ((groupsSel p (BatchQueue.addBatches q xs)).map (fun kg => kg.1)).Nodup := by
  induction xs with
  | nil => intro q p h; exact h
  | cons x rest ih =>
    intro q p h
    rw [BatchQueue.addBatches]
    refine ih _ p ?_
    by_cases hl : looseCond x.1 x.2 = true
    · rw [groupsSel_addBatch_loose hl]; exact h
    · rw [Bool.not_eq_true] at hl
      by_cases hp : x.1.hasPriority = p
      · rw [groupsSel_addBatch_match hl hp]
        exact addToGroups_keys_nodup _ _ h
      · rw [groupsSel_addBatch_other hl hp]; exact h

theorem groupLookup_of_mem {gs : List (BatchGroupKey × BatchGroup)}
    (h : (gs.map (fun kg => kg.1)).Nodup) {kg : BatchGroupKey × BatchGroup}
    (hm : kg ∈ gs) : groupLookup gs kg.1 = some kg.2 := by
  induction gs with
  | nil => cases hm
  | cons kg' rest ih =>
    obtain ⟨k', g'⟩ := kg'
    rw [List.map_cons, List.nodup_cons] at h
    cases hm with
    | head => simp [groupLookup]
    | tail _ hm' =>
      have hk : ¬ k' = kg.1 := by
        intro he
        exact h.1 (he ▸ List.mem_map.2 ⟨kg, hm', rfl⟩)
      simp only [groupLookup, if_neg hk]
      exact ih h.2 hm'

/-- C7: a sequence of AddBatch calls into a cleared queue partitions the
batches — the loose-batch list is exactly the non-instanceable calls in
submission order (each appearing there exactly once and in no group), and
for every priority selector and group key, the group map holds a group at
that key exactly when some instanceable call matches it; that group's
shared fields are seeded from the first matching call and its instance
list is exactly the (transform, distance) pairs of the matching calls in
submission order.  Group keys are unique, and each stored group is the one
its key looks up, so each instanceable call contributes exactly one entry
to exactly one group. -/
theorem addBatch_partition (q0 : BatchQueue) (xs : List (Batch × Bool)) :
    (BatchQueue.addBatches (BatchQueue.clear q0) xs).batches = looseOf xs ∧
    (∀ (p : Bool) (k : BatchGroupKey),
      groupLookup (groupsSel p (BatchQueue.addBatches (BatchQueue.clear q0) xs)) k =
        match groupedBatches p k xs with
        | [] => none
        | b :: rest => some { newGroupOf b with instances := (b :: rest).map instOf }) ∧
    (∀ p : Bool,
      ((groupsSel p (BatchQueue.addBatches (BatchQueue.clear q0) xs)).map
        (fun kg => kg.1)).Nodup) ∧
    (∀ p : Bool, ∀ kg ∈ groupsSel p (BatchQueue.addBatches (BatchQueue.clear q0) xs),
      groupLookup (groupsSel p (BatchQueue.addBatches (BatchQueue.clear q0) xs)) kg.1 =
        some kg.2) := by
  have hclear : ∀ p : Bool, groupsSel p (BatchQueue.clear q0) = [] := by
    intro p; cases p <;> simp [BatchQueue.clear, groupsSel]
  have hnodup : ∀ p : Bool,
      ((groupsSel p (BatchQueue.addBatches (BatchQueue.clear q0) xs)).map
        (fun kg => kg.1)).Nodup := by
    intro p
    refine addBatches_keys_nodup xs _ p ?_
    rw [hclear]
    exact List.nodup_nil
  refine ⟨?_, ?_, hnodup, ?_⟩
  · rw [addBatches_batches]
    simp [BatchQueue.clear]
  · intro p k
    rw [addBatches_groupLookup, hclear]
    simp only [groupLookup]
    exact groupAccum_none _
  · intro p kg hm
    exact groupLookup_of_mem (hnodup p) hm

/-- The effective maximum index count a group may have and still be
instanced: `GetMaxInstanceTriangles() * 3` in 32-bit unsigned arithmetic
(Batch.cpp lines 413, 444, 651). -/
def maxIndexCountOf (r : Renderer) : Nat := r.maxInstanceTriangles * 3 % 2 ^ 32

/-- Writes a run of transforms into the locked buffer at consecutive
slots, also returning the (slot, value) write log. -/
def writeRun (buf : Nat → Nat) (start : Nat) : List Nat → ((Nat → Nat) × List (Nat × Nat))
  | [] => (buf, [])
  | t :: rest =>
    let out := writeRun (Function.update buf start t) (start + 1) rest
    (out.1, (start, t) :: out.2)

/-- BatchGroup::SetTransforms (Batch.cpp line 409): skip groups below the
minimum size or over the triangle cap; otherwise record the start offset,
copy every instance transform to consecutive slots, and advance the free
index (a 32-bit unsigned reference) by the instance count.  The locked
buffer is a map from slot index to transform value; the final component
logs the writes performed. -/
def BatchGroup.setTransforms (g : BatchGroup) (r : Renderer) (geomIndexCount : Nat → Nat)
    (lockedData : Nat → Nat) (freeIndex : Nat) :
    BatchGroup × (Nat → Nat) × Nat × List (Nat × Nat) :=
  if g.instances.length < r.minInstanceGroupSize ∨
      geomIndexCount g.geometry > maxIndexCountOf r then
    (g, lockedData, freeIndex, [])
  else
    let out := writeRun lockedData freeIndex (g.instances.map (fun i => i.worldTransform))
    ({ g with startIndex := freeIndex }, out.1,
      (freeIndex + g.instances.length) % 2 ^ 32, out.2)

/-- Runs BatchGroup::SetTransforms over a group map in order, threading
the buffer and free index and concatenating the write logs. -/
def setTransformsGroups (r : Renderer) (geomIndexCount : Nat → Nat) :
    List (BatchGroupKey × BatchGroup) → (Nat → Nat) → Nat →
    (List (BatchGroupKey × BatchGroup) × (Nat → Nat) × Nat × List (Nat × Nat))
  | [], buf, fi => ([], buf, fi, [])
  | (k, g) :: rest, buf, fi =>
    let out := BatchGroup.setTransforms g r geomIndexCount buf fi
    let outRest := setTransformsGroups r geomIndexCount rest out.2.1 out.2.2.1
    ((k, out.1) :: outRest.1, outRest.2.1, outRest.2.2.1, out.2.2.2 ++ outRest.2.2.2)

/-- BatchQueue::SetTransforms (Batch.cpp line 639): priority groups first,
then regular groups, in map order. -/
def BatchQueue.setTransforms (q : BatchQueue) (r : Renderer) (geomIndexCount : Nat → Nat)
    (lockedData : Nat → Nat) (freeIndex : Nat) :
    BatchQueue × (Nat → Nat) × Nat × List (Nat × Nat) :=
  let outP := setTransformsGroups r geomIndexCount q.priorityBatchGroups lockedData freeIndex
  let outN := setTransformsGroups r geomIndexCount q.batchGroups outP.2.1 outP.2.2.1
  ({ q with priorityBatchGroups := outP.1, batchGroups := outN.1 },
    outN.2.1, outN.2.2.1, outP.2.2.2 ++ outN.2.2.2)

/-- One step of the GetNumInstances tally: add a group's instance count
into the 32-bit unsigned running total when the group meets the
minimum-size and maximum-triangle thresholds. -/
def addInstanceCount (r : Renderer) (geomIndexCount : Nat → Nat) (total : Nat)
    (kg : BatchGroupKey × BatchGroup) : Nat :=
  if kg.2.instances.length ≥ r.minInstanceGroupSize ∧
      geomIndexCount kg.2.geometry ≤ maxIndexCountOf r then
    (total + kg.2.instances.length) % 2 ^ 32
  else total

/-- BatchQueue::GetNumInstances (Batch.cpp line 647): 32-bit unsigned sum
of the instance counts of groups meeting the minimum-size and
maximum-triangle thresholds, priority groups first. -/
def BatchQueue.getNumInstances (q : BatchQueue) (r : Renderer) (geomIndexCount : Nat → Nat) :
    Nat :=
  q.batchGroups.foldl (addInstanceCount r geomIndexCount)
    (q.priorityBatchGroups.foldl (addInstanceCount r geomIndexCount) 0)

/-- True (unwrapped) total of the eligible instance counts of a group
list. -/
def sumElig (r : Renderer) (geomIndexCount : Nat → Nat)
    (gs : List (BatchGroupKey × BatchGroup)) : Nat :=
  ((gs.filter (fun kg =>
    decide (kg.2.instances.length ≥ r.minInstanceGroupSize ∧
      geomIndexCount kg.2.geometry ≤ maxIndexCountOf r))).map
        (fun kg => kg.2.instances.length)).sum

/-- True (unwrapped) total of eligible instance counts over both group
maps, priority first. -/
def eligibleInstanceTotal (q : BatchQueue) (r : Renderer) (geomIndexCount : Nat → Nat) : Nat :=
  sumElig r geomIndexCount (q.priorityBatchGroups ++ q.batchGroups)

theorem writeRun_log_length (ts : List Nat) :
    ∀ (buf : Nat → Nat) (s : Nat), (writeRun buf s ts).2.length = ts.length := by
  induction ts with
  | nil => intro buf s; rfl
  | cons t rest ih => intro buf s; simp [writeRun, ih]

theorem writeRun_buf (ts : List Nat) :
    ∀ (buf : Nat → Nat) (s j : Nat),
      (writeRun buf s ts).1 j =
        if s ≤ j ∧ j < s + ts.length then ts.getD (j - s) 0 else buf j := by
  induction ts with
  | nil =>
    intro buf s j
    rw [writeRun]
    rw [if_neg (by simp)]
  | cons t rest ih =>
    intro buf s j
    rw [writeRun]
    simp only
    rw [ih]
    by_cases h1 : s + 1 ≤ j ∧ j < s + 1 + rest.length
    · rw [if_pos h1, if_pos (by simp only [List.length_cons]; omega)]
      have : j - s = (j - (s + 1)) + 1 := by omega
      rw [this]
      simp
    · rw [if_neg h1]
      by_cases h2 : j = s
      · subst h2
        rw [if_pos (by simp only [List.length_cons]; omega)]
        simp [Function.update]
      · rw [if_neg (by simp only [List.length_cons]; omega), Function.update]
        simp [h2]

theorem sumElig_cons (r : Renderer) (gic : Nat → Nat) (kg : BatchGroupKey × BatchGroup)
    (rest : List (BatchGroupKey × BatchGroup)) :
    sumElig r gic (kg :: rest) =
      (if kg.2.instances.length ≥ r.minInstanceGroupSize ∧
          gic kg.2.geometry ≤ maxIndexCountOf r then kg.2.instances.length else 0) +
        sumElig r gic rest := by
  unfold sumElig
  rw [List.filter_cons]
  by_cases h : kg.2.instances.length ≥ r.minInstanceGroupSize ∧
      gic kg.2.geometry ≤ maxIndexCountOf r
  · simp [h]
  · simp [h]

theorem sumElig_append (r : Renderer) (gic : Nat → Nat)
    (gs1 gs2 : List (BatchGroupKey × BatchGroup)) :
    sumElig r gic (gs1 ++ gs2) = sumElig r gic gs1 + sumElig r gic gs2 := by
  unfold sumElig
  rw [List.filter_append, List.map_append, List.sum_append]

theorem foldl_addInstanceCount (r : Renderer) (gic : Nat → Nat)
    (gs : List (BatchGroupKey × BatchGroup)) :
    ∀ t0 : Nat, t0 < 2 ^ 32 →
      gs.foldl (addInstanceCount r gic) t0 = (t0 + sumElig r gic gs) % 2 ^ 32 := by
  induction gs with
  | nil =>
    intro t0 h
    have h0 : sumElig r gic [] = 0 := by simp [sumElig]
    rw [List.foldl_nil, h0, Nat.add_zero, Nat.mod_eq_of_lt h]
  | cons kg rest ih =>
    intro t0 h
    rw [List.foldl_cons, sumElig_cons]
    by_cases hc : kg.2.instances.length ≥ r.minInstanceGroupSize ∧
        gic kg.2.geometry ≤ maxIndexCountOf r
    · have hstep : addInstanceCount r gic t0 kg = (t0 + kg.2.instances.length) % 2 ^ 32 := by
        unfold addInstanceCount; rw [if_pos hc]
      rw [hstep, ih _ (Nat.mod_lt _ (by norm_num)), Nat.mod_add_mod, if_pos hc,
        Nat.add_assoc]
    · have hstep : addInstanceCount r gic t0 kg = t0 := by
        unfold addInstanceCount; rw [if_neg hc]
      rw [hstep, ih _ h, if_neg hc, Nat.zero_add]

theorem getNumInstances_eq_mod (q : BatchQueue) (r : Renderer) (gic : Nat → Nat) :
    BatchQueue.getNumInstances q r gic = eligibleInstanceTotal q r gic % 2 ^ 32 := by
  unfold BatchQueue.getNumInstances eligibleInstanceTotal
  rw [foldl_addInstanceCount r gic _ 0 (by norm_num)]
  rw [foldl_addInstanceCount r gic _ _ (Nat.mod_lt _ (by norm_num))]
  rw [Nat.mod_add_mod, Nat.zero_add, sumElig_append]

theorem setTransformsGroups_out (r : Renderer) (gic : Nat → Nat)
    (gs : List (BatchGroupKey × BatchGroup)) :
    ∀ (buf : Nat → Nat) (fi : Nat), fi < 2 ^ 32 →
      (setTransformsGroups r gic gs buf fi).2.2.1 = (fi + sumElig r gic gs) % 2 ^ 32 ∧
      (setTransformsGroups r gic gs buf fi).2.2.2.length = sumElig r gic gs ∧
      (setTransformsGroups r gic gs buf fi).2.2.1 < 2 ^ 32 := by
  induction gs with
  | nil =>
    intro buf fi h
    have h0 : sumElig r gic [] = 0 := by simp [sumElig]
    rw [setTransformsGroups, h0, Nat.add_zero, Nat.mod_eq_of_lt h]
    exact ⟨rfl, rfl, h⟩
  | cons kg rest ih =>
    intro buf fi h
    obtain ⟨k, g⟩ := kg
    simp only [setTransformsGroups]
    rw [sumElig_cons]
    by_cases hc : g.instances.length ≥ r.minInstanceGroupSize ∧
        gic g.geometry ≤ maxIndexCountOf r
    · have hcond : ¬ (g.instances.length < r.minInstanceGroupSize ∨
          gic g.geometry > maxIndexCountOf r) := by
        simp only [not_or, Nat.not_lt, gt_iff_lt, Nat.not_lt]
        omega
      have hgroup : BatchGroup.setTransforms g r gic buf fi =
          ({ g with startIndex := fi },
            (writeRun buf fi (g.instances.map (fun i => i.worldTransform))).1,
            (fi + g.instances.length) % 2 ^ 32,
            (writeRun buf fi (g.instances.map (fun i => i.worldTransform))).2) := by
        unfold BatchGroup.setTransforms
        rw [if_neg hcond]
      rw [hgroup]
      simp only
      have hfi1 : (fi + g.instances.length) % 2 ^ 32 < 2 ^ 32 := Nat.mod_lt _ (by norm_num)
      obtain ⟨h1, h2, h3⟩ := ih ((writeRun buf fi
        (g.instances.map (fun i => i.worldTransform))).1) _ hfi1
      refine ⟨?_, ?_, h3⟩
      · rw [if_pos hc, h1, Nat.mod_add_mod, Nat.add_assoc]
      · rw [if_pos hc, List.length_append, h2, writeRun_log_length, List.length_map]
    · have hcond : g.instances.length < r.minInstanceGroupSize ∨
          gic g.geometry > maxIndexCountOf r := by omega
      have hgroup : BatchGroup.setTransforms g r gic buf fi = (g, buf, fi, []) := by
        unfold BatchGroup.setTransforms
        rw [if_pos hcond]
      rw [hgroup]
      simp only
      obtain ⟨h1, h2, h3⟩ := ih buf fi h
      rw [if_neg hc, Nat.zero_add]
      refine ⟨h1, ?_, h3⟩
      simpa using h2

/-- C3: GetNumInstances equals exactly the number of transform slots a
subsequent SetTransforms on the same queue consumes against an
unconstrained buffer — the free-index cursor is advanced by it (from `fi`
to `fi + GetNumInstances`) and it equals the number of transforms
written.  The hypothesis rules out wrap of the 32-bit cursor. -/
theorem getNumInstances_matches_setTransforms (q : BatchQueue) (r : Renderer)
    (gic : Nat → Nat) (buf : Nat → Nat) (fi : Nat)
    (h : fi + eligibleInstanceTotal q r gic < 2 ^ 32) :
    (BatchQueue.setTransforms q r gic buf fi).2.2.1 =
      fi + BatchQueue.getNumInstances q r gic ∧
    (BatchQueue.setTransforms q r gic buf fi).2.2.2.length =
      BatchQueue.getNumInstances q r gic := by
  have htot : eligibleInstanceTotal q r gic =
      sumElig r gic q.priorityBatchGroups + sumElig r gic q.batchGroups := by
    unfold eligibleInstanceTotal
    exact sumElig_append r gic _ _
  have hfi : fi < 2 ^ 32 := by omega
  have hnum : BatchQueue.getNumInstances q r gic =
      sumElig r gic q.priorityBatchGroups + sumElig r gic q.batchGroups := by
    rw [getNumInstances_eq_mod, htot]
    exact Nat.mod_eq_of_lt (by omega)
  obtain ⟨hp1, hp2, hp3⟩ := setTransformsGroups_out r gic q.priorityBatchGroups buf fi hfi
  unfold BatchQueue.setTransforms
  simp only
  obtain ⟨hn1, hn2, hn3⟩ := setTransformsGroups_out r gic q.batchGroups
    (setTransformsGroups r gic q.priorityBatchGroups buf fi).2.1
    (setTransformsGroups r gic q.priorityBatchGroups buf fi).2.2.1 hp3
  constructor
  · rw [hn1, hp1, hnum, Nat.mod_add_mod]
    rw [Nat.mod_eq_of_lt (by omega), Nat.add_assoc]
  · rw [List.length_append, hp2, hn2, hnum]

/-- Concrete renderer policy for witnesses. -/
def wRenderer : Renderer := { minInstanceGroupSize := 2, maxInstanceTriangles := 100 }

/-- Concrete two-instance group for witnesses. -/
def wGroup : BatchGroup :=
  { geometry := 3, material := 1, pass := 1, vertexShader := 1, pixelShader := 1,
    camera := 1, lightQueue := 0, vertexShaderIndex := 0,
    instances := [{ worldTransform := 10, distance := 1 },
                  { worldTransform := 20, distance := 2 }],
    startIndex := M_MAX_UNSIGNED }

/-- Concrete queue holding one eligible priority group. -/
def wQueue : BatchQueue :=
  { batches := [], sortedPriorityBatches := [], sortedBatches := [],
    priorityBatchGroups := [({ lightQueue := 0, pass := 1, material := 1, geometry := 3 },
      wGroup)],
    batchGroups := [], sortedPriorityBatchGroups := [], sortedBatchGroups := [] }

/-- Witness for C3 at a concrete queue: two eligible instances, cursor 5;
GetNumInstances is 2, the cursor advances to 7 and two transforms are
written. -/
theorem getNumInstances_matches_setTransforms_witness :
    BatchQueue.getNumInstances wQueue wRenderer (fun _ => 30) = 2 ∧
    (BatchQueue.setTransforms wQueue wRenderer (fun _ => 30) (fun _ => 0) 5).2.2.1 = 7 ∧
    (BatchQueue.setTransforms wQueue wRenderer (fun _ => 30) (fun _ => 0) 5).2.2.2.length = 2 := by
  have h := getNumInstances_matches_setTransforms wQueue wRenderer (fun _ => 30)
    (fun _ => 0) 5 (by decide)
  have hnum : BatchQueue.getNumInstances wQueue wRenderer (fun _ => 30) = 2 := by decide
  refine ⟨hnum, ?_, ?_⟩
  · rw [h.1, hnum]
  · rw [h.2, hnum]

/-- Helper: getD through map by worldTransform. -/
theorem getD_map_worldTransform (l : List InstanceData) (i : Nat) (h : i < l.length) :
    (l.map (fun x => x.worldTransform)).getD i 0 = (l.getD i default).worldTransform := by
  rw [List.getD_eq_getElem _ _ (by simpa using h), List.getD_eq_getElem _ _ h]
  simp

/-- C8: BatchGroup::SetTransforms with cursor `c` is a no-op — the group
(and hence its start-index sentinel), the buffer and the cursor are
unchanged and nothing is written — when the instance count is below the
configured minimum group size or the geometry's index count exceeds three
times the maximum instanced triangle count; otherwise it sets the group's
start index to `c`, writes the i-th instance's transform to buffer slot
`c + i` for every `i` in insertion order, advances the cursor to `c` plus
the instance count, and leaves all other buffer slots unchanged.  The two
hypotheses rule out 32-bit wrap of the threshold product and of the
cursor. -/
theorem setTransforms_correct (g : BatchGroup) (r : Renderer) (gic : Nat → Nat)
    (buf : Nat → Nat) (c : Nat)
    (hmax : r.maxInstanceTriangles * 3 < 2 ^ 32)
    (hc : c + g.instances.length < 2 ^ 32) :
    ((g.instances.length < r.minInstanceGroupSize ∨
        gic g.geometry > r.maxInstanceTriangles * 3) →
      BatchGroup.setTransforms g r gic buf c = (g, buf, c, [])) ∧
    (¬ (g.instances.length < r.minInstanceGroupSize ∨
        gic g.geometry > r.maxInstanceTriangles * 3) →
      (BatchGroup.setTransforms g r gic buf c).1 = { g with startIndex := c } ∧
      (BatchGroup.setTransforms g r gic buf c).2.2.1 = c + g.instances.length ∧
      (∀ i, i < g.instances.length →
        (BatchGroup.setTransforms g r gic buf c).2.1 (c + i) =
          (g.instances.getD i default).worldTransform) ∧
      (∀ j, j < c ∨ c + g.instances.length ≤ j →
        (BatchGroup.setTransforms g r gic buf c).2.1 j = buf j)) := by
  have hmic : maxIndexCountOf r = r.maxInstanceTriangles * 3 := Nat.mod_eq_of_lt hmax
  constructor
  · intro hcond
    unfold BatchGroup.setTransforms
    rw [hmic, if_pos hcond]
  · intro hcond
    have hgroup : BatchGroup.setTransforms g r gic buf c =
        ({ g with startIndex := c },
          (writeRun buf c (g.instances.map (fun i => i.worldTransform))).1,
          (c + g.instances.length) % 2 ^ 32,
          (writeRun buf c (g.instances.map (fun i => i.worldTransform))).2) := by
      unfold BatchGroup.setTransforms
      rw [hmic, if_neg hcond]
    rw [hgroup]
    refine ⟨rfl, Nat.mod_eq_of_lt hc, ?_, ?_⟩
    · intro i hi
      rw [writeRun_buf]
      rw [if_pos (by simp only [List.length_map]; omega)]
      have : c + i - c = i := by omega
      rw [this]
      exact getD_map_worldTransform _ _ hi
    · intro j hj
      rw [writeRun_buf]
      rw [if_neg (by simp only [List.length_map]; omega)]

/-- Witness for C8 at a concrete group (both branches): with two
instances, minimum size 2 and index count within the cap, the cursor
moves from 5 to 7 and slot 6 receives the second transform; with minimum
size 3 the same call is a no-op. -/
theorem setTransforms_correct_witness :
    (BatchGroup.setTransforms wGroup wRenderer (fun _ => 30) (fun _ => 0) 5).2.2.1 = 7 ∧
    (BatchGroup.setTransforms wGroup wRenderer (fun _ => 30) (fun _ => 0) 5).2.1 6 = 20 ∧
    BatchGroup.setTransforms wGroup { wRenderer with minInstanceGroupSize := 3 }
      (fun _ => 30) (fun _ => 0) 5 = (wGroup, (fun _ => 0), 5, []) := by
  have h := setTransforms_correct wGroup wRenderer (fun _ => 30) (fun _ => 0) 5
    (by decide) (by decide)
  have h2 := h.2 (by decide)
  have h3 := setTransforms_correct wGroup { wRenderer with minInstanceGroupSize := 3 }
    (fun _ => 30) (fun _ => 0) 5 (by decide) (by decide)
  refine ⟨?_, ?_, h3.1 (by decide)⟩
  · have := h2.2.1
    rw [this]
    decide
  · have h6 := h2.2.2.1 1 (by decide)
    have : (5 : Nat) + 1 = 6 := by decide
    rw [this] at h6
    rw [h6]
    decide

/-- Shader parameter identifiers (GraphicsDefs.h, not under src/; the
values are arbitrary distinct codes — only identity is consumed). -/
def VSP_CAMERAPOS : Nat := 0
def VSP_CAMERAROT : Nat := 1
def VSP_VIEWPROJ : Nat := 2
def VSP_VIEWRIGHTVECTOR : Nat := 3
def VSP_VIEWUPVECTOR : Nat := 4
def VSP_MODEL : Nat := 5
def VSP_SKINMATRICES : Nat := 6
def VSP_LIGHTATTEN : Nat := 7
def VSP_LIGHTDIR : Nat := 8
def VSP_LIGHTPOS : Nat := 9
def VSP_LIGHTVECROT : Nat := 10
def VSP_SPOTPROJ : Nat := 11
def PSP_LIGHTCOLOR : Nat := 12
def VSP_SHADOWPROJ : Nat := 13
def PSP_SAMPLEOFFSETS : Nat := 14
def PSP_SHADOWCUBEADJUST : Nat := 15
def PSP_SHADOWCUBEPROJ : Nat := 16
def PSP_SHADOWFADE : Nat := 17
def PSP_SHADOWINTENSITY : Nat := 18
def PSP_SHADOWSPLITS : Nat := 19

/-- Texture unit identifiers (arbitrary distinct codes). -/
def TU_DIFFUSE : Nat := 0
def TU_NORMAL : Nat := 1
def TU_DETAIL : Nat := 2
def TU_ENVIRONMENT : Nat := 3
def TU_SHADOWMAP : Nat := 4
def TU_LIGHTRAMP : Nat := 5
def TU_LIGHTSHAPE : Nat := 6

/-- Pass type codes (Technique.h, not under src/; only equality against
these codes is consumed). -/
def PASS_LITBASE : Nat := 1
def PASS_LIGHT : Nat := 2
def PASS_SHADOW : Nat := 4

/-- One call into the graphics device, with values abstracted to the
identifiers the call is keyed on. -/
inductive GfxEvent where
  | setAlphaTest (enabled : Bool)
  | setBlendMode (mode : Nat)
  | setCullMode (mode : Nat)
  | setDepthTest (mode : Nat)
  | setDepthWrite (enabled : Bool)
  | setShaders (vs ps : Nat)
  | setShaderParameter (param : Nat)
  | setTexture (unit : Nat)
  | setIndexBuffer (geometry : Nat)
  | setVertexBuffers (geometry : Nat)
  | setVertexBuffersInstanced (offset : Nat)
  | uploadInstances (transforms : List Nat)
  | draw (geometry : Nat)
  | drawInstanced (geometry : Nat) (count : Nat)
  | clearTransformSources

/-- External lookups Prepare consumes: pass and material properties by
identity, the state cache's update oracles (scope tokens abstracted into
the per-identifier answer), and the light-queue contents.  `0` is the
null identity throughout. -/
structure RenderEnv where
  passAlphaTest : Nat → Bool
  passBlendMode : Nat → Nat
  passType : Nat → Nat
  passDepthTestMode : Nat → Nat
  passDepthWrite : Nat → Bool
  materialCullMode : Nat → Nat
  materialShadowCullMode : Nat → Nat
  materialParams : Nat → List Nat
  globalParams : List Nat
  needParameterUpdate : Nat → Bool
  needTextureUnit : Nat → Bool
  lightQueueLight : Nat → Nat
  lightQueueShadowMap : Nat → Nat
  passVertexShaders : Nat → Nat → Nat

/-- Push one shader parameter when the cache requires it. -/
def paramIfNeeded (env : RenderEnv) (p : Nat) : List GfxEvent :=
  if env.needParameterUpdate p then [GfxEvent.setShaderParameter p] else []

/-- Push each parameter of a list when the cache requires it. -/
def paramListEvents (env : RenderEnv) : List Nat → List GfxEvent
  | [] => []
  | p :: rest => paramIfNeeded env p ++ paramListEvents env rest

/-- Set one texture when the device requests the unit. -/
def texIfNeeded (env : RenderEnv) (u : Nat) : List GfxEvent :=
  if env.needTextureUnit u then [GfxEvent.setTexture u] else []

/-- Pass- and material-specific render states (Batch.cpp lines 85-96). -/
def renderStateEvents (env : RenderEnv) (b : Batch) : List GfxEvent :=
  if b.pass ≠ 0 ∧ b.material ≠ 0 then
    [GfxEvent.setAlphaTest (env.passAlphaTest b.pass),
     GfxEvent.setBlendMode (env.passBlendMode b.pass),
     GfxEvent.setCullMode (if env.passType b.pass ≠ PASS_SHADOW then
       env.materialCullMode b.material else env.materialShadowCullMode b.material),
     GfxEvent.setDepthTest (env.passDepthTestMode b.pass),
     GfxEvent.setDepthWrite (env.passDepthWrite b.pass)]
  else []

/-- Shadow-mapping parameters (Batch.cpp lines 210-357). -/
def shadowMapEvents (env : RenderEnv) : List GfxEvent :=
  paramIfNeeded env VSP_SHADOWPROJ ++ paramIfNeeded env PSP_SAMPLEOFFSETS ++
  paramIfNeeded env PSP_SHADOWCUBEADJUST ++ paramIfNeeded env PSP_SHADOWCUBEPROJ ++
  paramIfNeeded env PSP_SHADOWFADE ++ paramIfNeeded env PSP_SHADOWINTENSITY ++
  paramIfNeeded env PSP_SHADOWSPLITS

/-- Light-related shader parameters (Batch.cpp lines 144-358), pushed when
a light queue is attached. -/
def lightEvents (env : RenderEnv) (b : Batch) : List GfxEvent :=
  if b.lightQueue ≠ 0 then
    paramIfNeeded env VSP_LIGHTATTEN ++ paramIfNeeded env VSP_LIGHTDIR ++
    paramIfNeeded env VSP_LIGHTPOS ++ paramIfNeeded env VSP_LIGHTVECROT ++
    paramIfNeeded env VSP_SPOTPROJ ++ paramIfNeeded env PSP_LIGHTCOLOR ++
    (if env.lightQueueShadowMap b.lightQueue ≠ 0 then shadowMapEvents env else [])
  else []

/-- Material parameters and textures (Batch.cpp lines 360-379). -/
def materialEvents (env : RenderEnv) (b : Batch) : List GfxEvent :=
  if b.material ≠ 0 then
    paramListEvents env (env.materialParams b.material) ++
    texIfNeeded env TU_DIFFUSE ++ texIfNeeded env TU_NORMAL ++
    texIfNeeded env TU_DETAIL ++ texIfNeeded env TU_ENVIRONMENT
  else []

/-- Light-related textures (Batch.cpp lines 381-400), pushed when the
attached light queue holds a light. -/
def lightTextureEvents (env : RenderEnv) (b : Batch) : List GfxEvent :=
  if b.lightQueue ≠ 0 ∧ env.lightQueueLight b.lightQueue ≠ 0 then
    (if env.lightQueueShadowMap b.lightQueue ≠ 0 then texIfNeeded env TU_SHADOWMAP
     else []) ++
    texIfNeeded env TU_LIGHTRAMP ++ texIfNeeded env TU_LIGHTSHAPE
  else []

/-- Batch::Prepare (Batch.cpp line 79): returns immediately with no device
calls when either shader is unset; otherwise establishes render state,
binds the shaders, and pushes every parameter and texture the cache
reports stale.  Both overrideView branches push VSP_VIEWPROJ under the
same cache oracle, so they produce the same event shape. -/
def Batch.prepare (env : RenderEnv) (b : Batch) (setModelTransform : Bool) : List GfxEvent :=
  if b.vertexShader = 0 ∨ b.pixelShader = 0 then []
  else
    renderStateEvents env b ++
    [GfxEvent.setShaders b.vertexShader b.pixelShader] ++
    paramListEvents env env.globalParams ++
    paramIfNeeded env VSP_CAMERAPOS ++
    paramIfNeeded env VSP_CAMERAROT ++
    paramIfNeeded env VSP_VIEWPROJ ++
    paramIfNeeded env VSP_VIEWRIGHTVECTOR ++
    paramIfNeeded env VSP_VIEWUPVECTOR ++
    (if setModelTransform then paramIfNeeded env VSP_MODEL else []) ++
    (if b.shaderData ∧ b.shaderDataSize ≠ 0 then paramIfNeeded env VSP_SKINMATRICES
     else []) ++
    lightEvents env b ++
    materialEvents env b ++
    lightTextureEvents env b

/-- Batch::Draw (Batch.cpp line 403): Prepare — with the model transform
set, the default argument living in the header (modelled from the spec) —
followed unconditionally by the geometry draw call. -/
def Batch.draw (env : RenderEnv) (b : Batch) : List GfxEvent :=
  Batch.prepare env b true ++ [GfxEvent.draw b.geometry]

/-- An environment whose cache always requests updates. -/
def wEnv : RenderEnv :=
  { passAlphaTest := fun _ => false, passBlendMode := fun _ => 0,
    passType := fun _ => 0, passDepthTestMode := fun _ => 0,
    passDepthWrite := fun _ => true, materialCullMode := fun _ => 0,
    materialShadowCullMode := fun _ => 0, materialParams := fun _ => [],
    globalParams := [], needParameterUpdate := fun _ => true,
    needTextureUnit := fun _ => true, lightQueueLight := fun _ => 0,
    lightQueueShadowMap := fun _ => 0, passVertexShaders := fun _ _ => 0 }

/-- A batch whose shader pair is unset. -/
def shaderlessBatch : Batch :=
  { geometry := 7, material := 1, pass := 1, vertexShader := 0, pixelShader := 0,
    camera := 1, lightQueue := 0, vertexShaderIndex := 0, worldTransform := 1,
    distance := 0, sortKey := 0, hasPriority := false,
    geometryType := GeometryType.geomStatic, overrideView := false,
    shaderData := false, shaderDataSize := 0 }

/-- C2 counterexample: on a batch with no shaders, Batch::Draw is not a
complete no-op — Prepare is skipped but the geometry draw call is still
issued (Batch.cpp line 406 runs unconditionally), so a draw call is
issued for that batch's geometry. -/
theorem draw_missingShaders_not_noop :
    Batch.draw wEnv shaderlessBatch = [GfxEvent.draw 7] ∧
    shaderlessBatch.vertexShader = 0 ∧ Batch.draw wEnv shaderlessBatch ≠ [] := by
  refine ⟨rfl, rfl, ?_⟩
  intro h
  simp [Batch.draw] at h

/-- C2 amended: for every batch whose vertex shader or pixel shader is
unset, Prepare performs no state changes (it returns before any device
call), but Draw is not a complete no-op: it still issues exactly the one
geometry draw call, with whatever state was previously bound. -/
theorem prepare_missingShaders (env : RenderEnv) (b : Batch) (smt : Bool)
    (h : b.vertexShader = 0 ∨ b.pixelShader = 0) :
    Batch.prepare env b smt = [] ∧ Batch.draw env b = [GfxEvent.draw b.geometry] := by
  have hp : ∀ s : Bool, Batch.prepare env b s = [] := by
    intro s
    unfold Batch.prepare
    rw [if_pos h]
  refine ⟨hp smt, ?_⟩
  unfold Batch.draw
  rw [hp true]
  rfl

/-- Witness for the amended C2 at a concrete shaderless batch. -/
theorem prepare_missingShaders_witness :
    Batch.prepare wEnv shaderlessBatch true = [] ∧
    Batch.draw wEnv shaderlessBatch = [GfxEvent.draw shaderlessBatch.geometry] :=
  prepare_missingShaders wEnv shaderlessBatch true (Or.inl rfl)

/-- External context of BatchGroup::Draw: the render environment, the
renderer policy, the optional hardware instancing buffer (0 = null) with
its vertex capacity and element mask, the per-lock-attempt success
oracle, geometry index counts, and the instancing shader variation
offsets (GEOM_INSTANCED, MAX_LIGHT_VS_VARIATIONS — GraphicsDefs.h, not
under src/, kept abstract). -/
structure DrawCtx where
  env : RenderEnv
  renderer : Renderer
  instancingBuffer : Nat
  bufferVertexCount : Nat
  bufferElementMask : Nat
  lockOk : Nat → Bool
  geomIndexCount : Nat → Nat
  geomInstanced : Nat
  maxLightVSVariations : Nat

/-- The synthetic shared batch BatchGroup::Draw constructs (Batch.cpp
line 433); fields the source leaves default-constructed take the header
defaults (modelled from the spec: a plain batch with no overrides and no
per-instance data). -/
def BatchGroup.tempBatch (g : BatchGroup) : Batch :=
  { geometry := g.geometry, material := g.material, pass := g.pass,
    vertexShader := g.vertexShader, pixelShader := g.pixelShader,
    camera := g.camera, lightQueue := g.lightQueue,
    vertexShaderIndex := g.vertexShaderIndex,
    worldTransform := 0, distance := 0, sortKey := 0, hasPriority := false,
    geometryType := GeometryType.geomStatic, overrideView := false,
    shaderData := false, shaderDataSize := 0 }

/-- The lock-fill-draw loop of BatchGroup::Draw (Batch.cpp lines
487-517): each iteration takes up to the buffer capacity of the remaining
transforms, locks the buffer (`attempt` counts the locks of this draw),
copies the chunk, and issues one instanced draw; a failed lock ends the
loop with the chunks drawn so far.  With capacity 0 the source loop would
never progress; the model then returns no draws. -/
def instancedChunkEvents (geometry cap : Nat) (lockOk : Nat → Bool) :
    Nat → List Nat → List GfxEvent
  | _, [] => []
  | attempt, t :: rest =>
    if cap = 0 then []
    else if lockOk attempt then
      GfxEvent.uploadInstances ((t :: rest).take (min (t :: rest).length cap)) ::
      GfxEvent.setIndexBuffer geometry ::
      GfxEvent.setVertexBuffersInstanced 0 ::
      GfxEvent.drawInstanced geometry (min (t :: rest).length cap) ::
      instancedChunkEvents geometry cap lockOk (attempt + 1)
        ((t :: rest).drop (min (t :: rest).length cap))
    else []
  termination_by _ ts => ts.length
  decreasing_by
    simp only [List.length_drop, List.length_cons]
    omega

/-- The successive chunks of a transform list at a given capacity. -/
def fullChunks (cap : Nat) : List Nat → List (List Nat)
  | [] => []
  | t :: rest =>
    if cap = 0 then []
    else (t :: rest).take (min (t :: rest).length cap) ::
      fullChunks cap ((t :: rest).drop (min (t :: rest).length cap))
  termination_by ts => ts.length
  decreasing_by
    simp only [List.length_drop, List.length_cons]
    omega

/-- The chunk sizes: min(remaining, capacity), repeated until all
instances are covered. -/
def instChunkSizes (cap : Nat) : Nat → List Nat
  | 0 => []
  | n + 1 =>
    if cap = 0 then []
    else min (n + 1) cap :: instChunkSizes cap (n + 1 - min (n + 1) cap)
  termination_by n => n
  decreasing_by omega

/-- BatchGroup::Draw (Batch.cpp line 427), as events plus the final state
of the geometry's shared vertex-buffer and element-mask lists (which the
instanced path temporarily extends with the instancing stream via
const_cast, and pops again on every exit path). -/
def BatchGroup.draw (g : BatchGroup) (ctx : DrawCtx) (vbs masks : List Nat) :
    List GfxEvent × List Nat × List Nat :=
  if g.instances.length = 0 then ([], vbs, masks)
  else if ctx.instancingBuffer = 0 ∨
      g.instances.length < ctx.renderer.minInstanceGroupSize ∨
      ctx.geomIndexCount g.geometry > maxIndexCountOf ctx.renderer then
    (Batch.prepare ctx.env (BatchGroup.tempBatch g) false ++
      [GfxEvent.setIndexBuffer g.geometry, GfxEvent.setVertexBuffers g.geometry] ++
      (g.instances.map (fun _ =>
        [GfxEvent.setShaderParameter VSP_MODEL, GfxEvent.draw g.geometry])).flatten ++
      [GfxEvent.clearTransformSources],
      vbs, masks)
  else
    let vsIdx := if ctx.env.passType g.pass = PASS_LIGHT ∨
        ctx.env.passType g.pass = PASS_LITBASE then
      g.vertexShaderIndex + ctx.geomInstanced * ctx.maxLightVSVariations
    else g.vertexShaderIndex + ctx.geomInstanced
    let prep := Batch.prepare ctx.env
      { BatchGroup.tempBatch g with
        vertexShader := ctx.env.passVertexShaders g.pass vsIdx } false
    let vbs1 := vbs ++ [ctx.instancingBuffer]
    let masks1 := masks ++ [ctx.bufferElementMask]
    if g.startIndex = M_MAX_UNSIGNED then
      (prep ++ instancedChunkEvents g.geometry ctx.bufferVertexCount ctx.lockOk 0
        (g.instances.map (fun i => i.worldTransform)),
        vbs1.dropLast, masks1.dropLast)
    else
      (prep ++ [GfxEvent.setIndexBuffer g.geometry,
        GfxEvent.setVertexBuffersInstanced g.startIndex,
        GfxEvent.drawInstanced g.geometry g.instances.length],
        vbs1.dropLast, masks1.dropLast)

/-- Extracts the transform payload of an instance upload. -/
def chunkOf : GfxEvent → Option (List Nat)
  | GfxEvent.uploadInstances ts => some ts
  | _ => none

/-- Extracts the instance count of an instanced draw call. -/
def instCountOf : GfxEvent → Option Nat
  | GfxEvent.drawInstanced _ n => some n
  | _ => none

/-- The uploaded instance-transform chunks of an event list. -/
def uploadedChunks (evs : List GfxEvent) : List (List Nat) := evs.filterMap chunkOf

/-- The instanced draw counts of an event list. -/
def instancedDrawCounts (evs : List GfxEvent) : List Nat := evs.filterMap instCountOf

/-- No parameter push is an instance upload or an instanced draw. -/
theorem stateEvent_paramIfNeeded (env : RenderEnv) (p : Nat) :
    ∀ e ∈ paramIfNeeded env p, chunkOf e = none ∧ instCountOf e = none := by
  intro e he
  unfold paramIfNeeded at he
  split at he
  · simp at he
    subst he
    exact ⟨rfl, rfl⟩
  · simp at he

theorem stateEvent_paramListEvents (env : RenderEnv) :
    ∀ ps : List Nat, ∀ e ∈ paramListEvents env ps,
      chunkOf e = none ∧ instCountOf e = none := by
  intro ps
  induction ps with
  | nil => intro e he; simp [paramListEvents] at he
  | cons p rest ih =>
    intro e he
    rw [paramListEvents] at he
    rcases List.mem_append.1 he with h | h
    · exact stateEvent_paramIfNeeded env p e h
    · exact ih e h

theorem stateEvent_texIfNeeded (env : RenderEnv) (u : Nat) :
    ∀ e ∈ texIfNeeded env u, chunkOf e = none ∧ instCountOf e = none := by
  intro e he
  unfold texIfNeeded at he
  split at he
  · simp at he
    subst he
    exact ⟨rfl, rfl⟩
  · simp at he

theorem stateEvent_renderStateEvents (env : RenderEnv) (b : Batch) :
    ∀ e ∈ renderStateEvents env b, chunkOf e = none ∧ instCountOf e = none := by
  intro e he
  unfold renderStateEvents at he
  split at he
  · simp only [List.mem_cons, List.mem_singleton] at he
    rcases he with rfl | rfl | rfl | rfl | rfl | h
    · exact ⟨rfl, rfl⟩
    · exact ⟨rfl, rfl⟩
    · exact ⟨rfl, rfl⟩
    · exact ⟨rfl, rfl⟩
    · exact ⟨rfl, rfl⟩
    · simp at h
  · simp at he

theorem stateEvent_shadowMapEvents (env : RenderEnv) :
    ∀ e ∈ shadowMapEvents env, chunkOf e = none ∧ instCountOf e = none := by
  intro e he
  unfold shadowMapEvents at he
  simp only [List.mem_append] at he
  rcases he with ((((((h | h) | h) | h) | h) | h) | h) <;>
    exact stateEvent_paramIfNeeded env _ e h

theorem stateEvent_lightEvents (env : RenderEnv) (b : Batch) :
    ∀ e ∈ lightEvents env b, chunkOf e = none ∧ instCountOf e = none := by
  intro e he
  unfold lightEvents at he
  split at he
  · simp only [List.mem_append] at he
    rcases he with ((((((h | h) | h) | h) | h) | h) | h)
    · exact stateEvent_paramIfNeeded env _ e h
    · exact stateEvent_paramIfNeeded env _ e h
    · exact stateEvent_paramIfNeeded env _ e h
    · exact stateEvent_paramIfNeeded env _ e h
    · exact stateEvent_paramIfNeeded env _ e h
    · exact stateEvent_paramIfNeeded env _ e h
    · split at h
      · exact stateEvent_shadowMapEvents env e h
      · simp at h
  · simp at he

theorem stateEvent_materialEvents (env : RenderEnv) (b : Batch) :
    ∀ e ∈ materialEvents env b, chunkOf e = none ∧ instCountOf e = none := by
  intro e he
  unfold materialEvents at he
  split at he
  · simp only [List.mem_append] at he
    rcases he with (((h | h) | h) | h) | h
    · exact stateEvent_paramListEvents env _ e h
    · exact stateEvent_texIfNeeded env _ e h
    · exact stateEvent_texIfNeeded env _ e h
    · exact stateEvent_texIfNeeded env _ e h
    · exact stateEvent_texIfNeeded env _ e h
  · simp at he

theorem stateEvent_lightTextureEvents (env : RenderEnv) (b : Batch) :
    ∀ e ∈ lightTextureEvents env b, chunkOf e = none ∧ instCountOf e = none := by
  intro e he
  unfold lightTextureEvents at he
  split at he
  · simp only [List.mem_append] at he
    rcases he with (h | h) | h
    · split at h
      · exact stateEvent_texIfNeeded env _ e h
      · simp at h
    · exact stateEvent_texIfNeeded env _ e h
    · exact stateEvent_texIfNeeded env _ e h
  · simp at he

/-- Prepare emits neither instance uploads nor instanced draw calls. -/
theorem stateEvent_prepare (env : RenderEnv) (b : Batch) (smt : Bool) :
    ∀ e ∈ Batch.prepare env b smt, chunkOf e = none ∧ instCountOf e = none := by
  intro e he
  unfold Batch.prepare at he
  split at he
  · simp at he
  · simp only [List.mem_append] at he
    rcases he with (((((((((((h | h) | h) | h) | h) | h) | h) | h) | h) | h) | h) | h) | h
    · exact stateEvent_renderStateEvents env b e h
    · simp at h
      subst h
      exact ⟨rfl, rfl⟩
    · exact stateEvent_paramListEvents env _ e h
    · exact stateEvent_paramIfNeeded env _ e h
    · exact stateEvent_paramIfNeeded env _ e h
    · exact stateEvent_paramIfNeeded env _ e h
    · exact stateEvent_paramIfNeeded env _ e h
    · exact stateEvent_paramIfNeeded env _ e h
    · split at h
      · exact stateEvent_paramIfNeeded env _ e h
      · simp at h
    · split at h
      · exact stateEvent_paramIfNeeded env _ e h
      · simp at h
    · exact stateEvent_lightEvents env b e h
    · exact stateEvent_materialEvents env b e h
    · exact stateEvent_lightTextureEvents env b e h

theorem uploadedChunks_prepare (env : RenderEnv) (b : Batch) (smt : Bool) :
    uploadedChunks (Batch.prepare env b smt) = [] := by
  unfold uploadedChunks
  rw [List.filterMap_eq_nil_iff]
  intro e he
  exact (stateEvent_prepare env b smt e he).1

theorem instancedDrawCounts_prepare (env : RenderEnv) (b : Batch) (smt : Bool) :
    instancedDrawCounts (Batch.prepare env b smt) = [] := by
  unfold instancedDrawCounts
  rw [List.filterMap_eq_nil_iff]
  intro e he
  exact (stateEvent_prepare env b smt e he).2

theorem fullChunks_flatten (cap : Nat) (hcap : cap ≠ 0) :
    ∀ (n : Nat) (ts : List Nat), ts.length ≤ n → (fullChunks cap ts).flatten = ts := by
  intro n
  induction n with
  | zero =>
    intro ts h
    have : ts = [] := List.eq_nil_of_length_eq_zero (Nat.le_zero.1 h)
    subst this
    rw [fullChunks]
    rfl
  | succ n ih =>
    intro ts h
    cases ts with
    | nil => rw [fullChunks]; rfl
    | cons t rest =>
      rw [fullChunks, if_neg hcap, List.flatten_cons]
      rw [ih _ (by simp only [List.length_drop, List.length_cons] at h ⊢; omega)]
      exact List.take_append_drop _ _

theorem fullChunks_lengths (cap : Nat) (hcap : cap ≠ 0) :
    ∀ (n : Nat) (ts : List Nat), ts.length ≤ n →
      (fullChunks cap ts).map List.length = instChunkSizes cap ts.length := by
  intro n
  induction n with
  | zero =>
    intro ts h
    have : ts = [] := List.eq_nil_of_length_eq_zero (Nat.le_zero.1 h)
    subst this
    simp [fullChunks, instChunkSizes]
  | succ n ih =>
    intro ts h
    cases ts with
    | nil => simp [fullChunks, instChunkSizes]
    | cons t rest =>
      rw [fullChunks, if_neg hcap, List.map_cons]
      rw [ih _ (by simp only [List.length_drop, List.length_cons] at h ⊢; omega)]
      rw [List.length_cons, instChunkSizes, if_neg hcap]
      rw [List.length_take, List.length_drop, List.length_cons]
      congr 1
      omega

theorem fullChunks_take_flatten (cap : Nat) (hcap : cap ≠ 0) :
    ∀ (k : Nat) (ts : List Nat),
      ((fullChunks cap ts).take k).flatten = ts.take (k * cap) := by
  intro k
  induction k with
  | zero => intro ts; simp
  | succ k ih =>
    intro ts
    cases ts with
    | nil => rw [fullChunks]; simp
    | cons t rest =>
      rw [fullChunks, if_neg hcap, List.take_succ_cons, List.flatten_cons, ih]
      by_cases hlen : (t :: rest).length ≤ cap
      · have hm : min (t :: rest).length cap = (t :: rest).length := by omega
        rw [hm, List.take_of_length_le (le_refl _), List.drop_of_length_le (le_refl _)]
        rw [List.take_nil, List.append_nil]
        have hc2 : cap ≤ (k + 1) * cap := Nat.le_mul_of_pos_left cap (by omega)
        rw [List.take_of_length_le (by omega)]
      · have hm : min (t :: rest).length cap = cap := by omega
        rw [hm, ← List.take_add]
        congr 1
        ring

theorem instancedChunkEvents_allOk (geometry cap : Nat) (lockOk : Nat → Bool)
    (hcap : cap ≠ 0) (hlock : ∀ j, lockOk j = true) :
    ∀ (n : Nat) (ts : List Nat) (a : Nat), ts.length ≤ n →
      uploadedChunks (instancedChunkEvents geometry cap lockOk a ts) = fullChunks cap ts ∧
      instancedDrawCounts (instancedChunkEvents geometry cap lockOk a ts) =
        (fullChunks cap ts).map List.length := by
  intro n
  induction n with
  | zero =>
    intro ts a h
    have : ts = [] := List.eq_nil_of_length_eq_zero (Nat.le_zero.1 h)
    subst this
    rw [instancedChunkEvents, fullChunks]
    exact ⟨rfl, rfl⟩
  | succ n ih =>
    intro ts a h
    cases ts with
    | nil =>
      rw [instancedChunkEvents, fullChunks]
      exact ⟨rfl, rfl⟩
    | cons t rest =>
      rw [instancedChunkEvents, fullChunks, if_neg hcap, if_neg hcap, if_pos (hlock a)]
      obtain ⟨ih1, ih2⟩ := ih ((t :: rest).drop (min (t :: rest).length cap)) (a + 1)
        (by simp only [List.length_drop, List.length_cons] at h ⊢; omega)
      constructor
      · simp only [uploadedChunks, List.filterMap_cons, chunkOf] at ih1 ⊢
        rw [ih1]
      · simp only [instancedDrawCounts, List.filterMap_cons, instCountOf] at ih2 ⊢
        rw [ih2, List.map_cons, List.length_take,
          Nat.min_eq_left (Nat.min_le_left _ _)]

theorem instancedChunkEvents_lockFail (geometry cap : Nat) (lockOk : Nat → Bool)
    (hcap : cap ≠ 0) :
    ∀ (n : Nat) (ts : List Nat) (a k : Nat), ts.length ≤ n →
      (∀ j, j < k → lockOk (a + j) = true) → lockOk (a + k) = false →
      uploadedChunks (instancedChunkEvents geometry cap lockOk a ts) =
        (fullChunks cap ts).take k ∧
      instancedDrawCounts (instancedChunkEvents geometry cap lockOk a ts) =
        ((fullChunks cap ts).take k).map List.length := by
  intro n
  induction n with
  | zero =>
    intro ts a k h hlock hfail
    have : ts = [] := List.eq_nil_of_length_eq_zero (Nat.le_zero.1 h)
    subst this
    rw [instancedChunkEvents, fullChunks]
    simp [uploadedChunks, instancedDrawCounts]
  | succ n ih =>
    intro ts a k h hlock hfail
    cases ts with
    | nil =>
      rw [instancedChunkEvents, fullChunks]
      simp [uploadedChunks, instancedDrawCounts]
    | cons t rest =>
      cases k with
      | zero =>
        have hf : lockOk a = false := by simpa using hfail
        rw [instancedChunkEvents, fullChunks, if_neg hcap, if_neg hcap, if_neg (by
          rw [hf]; exact Bool.false_ne_true)]
        simp [uploadedChunks, instancedDrawCounts]
      | succ k =>
        have ht : lockOk a = true := by
          have := hlock 0 (by omega)
          simpa using this
        rw [instancedChunkEvents, fullChunks, if_neg hcap, if_neg hcap, if_pos ht]
        obtain ⟨ih1, ih2⟩ := ih ((t :: rest).drop (min (t :: rest).length cap)) (a + 1) k
          (by simp only [List.length_drop, List.length_cons] at h ⊢; omega)
          (by intro j hj
              have := hlock (j + 1) (by omega)
              have harith : a + (j + 1) = a + 1 + j := by omega
              rwa [harith] at this)
          (by have harith : a + (k + 1) = a + 1 + k := by omega
              rwa [harith] at hfail)
        constructor
        · simp only [uploadedChunks, List.filterMap_cons, chunkOf] at ih1 ⊢
          rw [ih1, List.take_succ_cons]
        · simp only [instancedDrawCounts, List.filterMap_cons, instCountOf] at ih2 ⊢
          rw [ih2, List.take_succ_cons, List.map_cons, List.length_take,
            Nat.min_eq_left (Nat.min_le_left _ _)]

theorem uploadedChunks_append (evs1 evs2 : List GfxEvent) :
    uploadedChunks (evs1 ++ evs2) = uploadedChunks evs1 ++ uploadedChunks evs2 := by
  unfold uploadedChunks
  exact List.filterMap_append evs1 evs2 chunkOf

theorem instancedDrawCounts_append (evs1 evs2 : List GfxEvent) :
    instancedDrawCounts (evs1 ++ evs2) =
      instancedDrawCounts evs1 ++ instancedDrawCounts evs2 := by
  unfold instancedDrawCounts
  exact List.filterMap_append evs1 evs2 instCountOf

/-- Reduction of BatchGroup::Draw on the dynamic instanced path: group
non-empty, instancing buffer present, thresholds met, start index still
the sentinel. -/
theorem groupDraw_dynamic_eq (g : BatchGroup) (ctx : DrawCtx) (vbs masks : List Nat)
    (hne : g.instances.length ≠ 0)
    (hbuf : ctx.instancingBuffer ≠ 0)
    (hmin : ctx.renderer.minInstanceGroupSize ≤ g.instances.length)
    (hidx : ctx.geomIndexCount g.geometry ≤ maxIndexCountOf ctx.renderer)
    (hstart : g.startIndex = M_MAX_UNSIGNED) :
    BatchGroup.draw g ctx vbs masks =
      (Batch.prepare ctx.env
          { BatchGroup.tempBatch g with
            vertexShader := ctx.env.passVertexShaders g.pass
              (if ctx.env.passType g.pass = PASS_LIGHT ∨
                  ctx.env.passType g.pass = PASS_LITBASE then
                g.vertexShaderIndex + ctx.geomInstanced * ctx.maxLightVSVariations
              else g.vertexShaderIndex + ctx.geomInstanced) } false ++
        instancedChunkEvents g.geometry ctx.bufferVertexCount ctx.lockOk 0
          (g.instances.map (fun i => i.worldTransform)),
        (vbs ++ [ctx.instancingBuffer]).dropLast,
        (masks ++ [ctx.bufferElementMask]).dropLast) := by
  unfold BatchGroup.draw
  rw [if_neg hne, if_neg (by push_neg; exact ⟨hbuf, by omega, by omega⟩), if_pos hstart]

/-- C9: for an instancing-eligible group drawn without a pre-assigned
start offset and with every lock succeeding, BatchGroup::Draw issues
instanced draws in chunks whose sizes are, in order, min(remaining
instances, buffer capacity) until all instances are covered: the uploaded
chunks concatenate to exactly the instance transforms in insertion order,
and both the chunk sizes and the instanced draw counts follow the
min-recursion `instChunkSizes`. -/
theorem groupDraw_chunks (g : BatchGroup) (ctx : DrawCtx) (vbs masks : List Nat)
    (hne : g.instances.length ≠ 0)
    (hbuf : ctx.instancingBuffer ≠ 0)
    (hmin : ctx.renderer.minInstanceGroupSize ≤ g.instances.length)
    (hidx : ctx.geomIndexCount g.geometry ≤ maxIndexCountOf ctx.renderer)
    (hstart : g.startIndex = M_MAX_UNSIGNED)
    (hcap : ctx.bufferVertexCount ≠ 0)
    (hlock : ∀ j, ctx.lockOk j = true) :
    (uploadedChunks (BatchGroup.draw g ctx vbs masks).1).flatten =
      g.instances.map (fun i => i.worldTransform) ∧
    (uploadedChunks (BatchGroup.draw g ctx vbs masks).1).map List.length =
      instChunkSizes ctx.bufferVertexCount g.instances.length ∧
    instancedDrawCounts (BatchGroup.draw g ctx vbs masks).1 =
      instChunkSizes ctx.bufferVertexCount g.instances.length := by
  rw [groupDraw_dynamic_eq g ctx vbs masks hne hbuf hmin hidx hstart]
  dsimp only
  rw [uploadedChunks_append, uploadedChunks_prepare, List.nil_append]
  rw [instancedDrawCounts_append, instancedDrawCounts_prepare, List.nil_append]
  obtain ⟨h1, h2⟩ := instancedChunkEvents_allOk g.geometry ctx.bufferVertexCount ctx.lockOk
    hcap hlock (g.instances.map (fun i => i.worldTransform)).length
    (g.instances.map (fun i => i.worldTransform)) 0 (le_refl _)
  refine ⟨?_, ?_, ?_⟩
  · rw [h1, fullChunks_flatten ctx.bufferVertexCount hcap _ _ (le_refl _)]
  · rw [h1, fullChunks_lengths ctx.bufferVertexCount hcap _ _ (le_refl _), List.length_map]
  · rw [h2, fullChunks_lengths ctx.bufferVertexCount hcap _ _ (le_refl _), List.length_map]

/-- C10: if the `k`-th lock of the instancing buffer fails during an
eligible dynamic-path BatchGroup::Draw, the draw of that group is aborted
with no draw call for the remaining instances — exactly the first `k`
chunks are uploaded and drawn, covering only the first `k * capacity`
instance transforms — no error is surfaced (the call returns normally),
and the geometry's shared vertex-buffer and element-mask lists are
restored to their pre-call state: the appended instancing stream is
removed, so subsequent groups' draws are unaffected. -/
theorem groupDraw_lockFailure (g : BatchGroup) (ctx : DrawCtx) (vbs masks : List Nat)
    (k : Nat)
    (hne : g.instances.length ≠ 0)
    (hbuf : ctx.instancingBuffer ≠ 0)
    (hmin : ctx.renderer.minInstanceGroupSize ≤ g.instances.length)
    (hidx : ctx.geomIndexCount g.geometry ≤ maxIndexCountOf ctx.renderer)
    (hstart : g.startIndex = M_MAX_UNSIGNED)
    (hcap : ctx.bufferVertexCount ≠ 0)
    (hlock : ∀ j, j < k → ctx.lockOk j = true)
    (hfail : ctx.lockOk k = false) :
    (BatchGroup.draw g ctx vbs masks).2.1 = vbs ∧
    (BatchGroup.draw g ctx vbs masks).2.2 = masks ∧
    uploadedChunks (BatchGroup.draw g ctx vbs masks).1 =
      (fullChunks ctx.bufferVertexCount
        (g.instances.map (fun i => i.worldTransform))).take k ∧
    (uploadedChunks (BatchGroup.draw g ctx vbs masks).1).flatten =
      (g.instances.map (fun i => i.worldTransform)).take (k * ctx.bufferVertexCount) ∧
    instancedDrawCounts (BatchGroup.draw g ctx vbs masks).1 =
      ((fullChunks ctx.bufferVertexCount
        (g.instances.map (fun i => i.worldTransform))).take k).map List.length := by
  rw [groupDraw_dynamic_eq g ctx vbs masks hne hbuf hmin hidx hstart]
  dsimp only
  rw [uploadedChunks_append, uploadedChunks_prepare, List.nil_append]
  rw [instancedDrawCounts_append, instancedDrawCounts_prepare, List.nil_append]
  obtain ⟨h1, h2⟩ := instancedChunkEvents_lockFail g.geometry ctx.bufferVertexCount
    ctx.lockOk hcap (g.instances.map (fun i => i.worldTransform)).length
    (g.instances.map (fun i => i.worldTransform)) 0 k (le_refl _)
    (by intro j hj; simpa using hlock j hj) (by simpa using hfail)
  refine ⟨List.dropLast_concat, List.dropLast_concat, h1, ?_, h2⟩
  rw [h1, fullChunks_take_flatten ctx.bufferVertexCount hcap]

/-- A five-instance group with computed transforms for the chunking
scenarios. -/
def w5Group : BatchGroup :=
  { geometry := 3, material := 1, pass := 1, vertexShader := 1, pixelShader := 1,
    camera := 1, lightQueue := 0, vertexShaderIndex := 0,
    instances := [{ worldTransform := 11, distance := 1 },
                  { worldTransform := 12, distance := 2 },
                  { worldTransform := 13, distance := 3 },
                  { worldTransform := 14, distance := 4 },
                  { worldTransform := 15, distance := 5 }],
    startIndex := M_MAX_UNSIGNED }

/-- Draw context with buffer capacity 2 and all locks succeeding. -/
def wCtx : DrawCtx :=
  { env := wEnv, renderer := wRenderer, instancingBuffer := 9,
    bufferVertexCount := 2, bufferElementMask := 0,
    lockOk := fun _ => true, geomIndexCount := fun _ => 30,
    geomInstanced := 2, maxLightVSVariations := 6 }

/-- Draw context whose second lock (attempt 1) fails. -/
def wCtxFail : DrawCtx :=
  { wCtx with lockOk := fun j => decide (j = 0) }

/-- Witness for C9: five instances, capacity 2 — the chunks have sizes
2, 2, 1 and cover the five transforms exactly once in insertion order. -/
theorem groupDraw_chunks_witness :
    instChunkSizes 2 5 = [2, 2, 1] ∧
    (uploadedChunks (BatchGroup.draw w5Group wCtx [] []).1).map List.length = [2, 2, 1] ∧
    (uploadedChunks (BatchGroup.draw w5Group wCtx [] []).1).flatten =
      w5Group.instances.map (fun i => i.worldTransform) := by
  have e5 : instChunkSizes 2 5 = [2, 2, 1] := by
    rw [show (5 : Nat) = 4 + 1 from rfl, instChunkSizes]
    norm_num
    rw [show (3 : Nat) = 2 + 1 from rfl, instChunkSizes]
    norm_num
    rw [show (1 : Nat) = 0 + 1 from rfl, instChunkSizes]
    norm_num
    rw [instChunkSizes]
  have h := groupDraw_chunks w5Group wCtx [] [] (by decide) (by decide) (by decide)
    (by decide) (by decide) (by decide) (fun j => rfl)
  have hconv : instChunkSizes wCtx.bufferVertexCount w5Group.instances.length =
      [2, 2, 1] := by
    rw [show wCtx.bufferVertexCount = 2 from rfl,
      show w5Group.instances.length = 5 from rfl]
    exact e5
  refine ⟨e5, ?_, h.1⟩
  rw [h.2.1, hconv]

/-- Witness for C10: five instances, capacity 2, the second lock fails —
one chunk of two transforms is drawn, the remaining three instances get
no draw, and the vertex-buffer and element-mask lists come back
unchanged. -/
theorem groupDraw_lockFailure_witness :
    (BatchGroup.draw w5Group wCtxFail [] []).2.1 = [] ∧
    (BatchGroup.draw w5Group wCtxFail [] []).2.2 = [] ∧
    (uploadedChunks (BatchGroup.draw w5Group wCtxFail [] []).1).flatten = [11, 12] := by
  have h := groupDraw_lockFailure w5Group wCtxFail [] [] 1 (by decide) (by decide)
    (by decide) (by decide) (by decide) (by decide)
    (by intro j hj
        have hj0 : j = 0 := by omega
        subst hj0
        rfl)
    (by rfl)
  refine ⟨h.1, h.2.1, ?_⟩
  rw [h.2.2.2.1]
  decide
